import Mathlib

/-!
# GoLilyPad: the Connect client (`client/connect/connectImpl.go`)

A shallow embedding of `ConnectImpl` and its methods.

Modelling conventions
* Go interface values (`connect.Request`, `connect.Result`) are `Value`s: `nil` or an
  object identified by a number.
* A `RequestCallback` is a Go func value: `none` is the nil func, `some f` is the function
  identified by `f`.  A callback is an external effect: invoking it appends
  `Effect.call f statusCode result` to the effect log and does not touch the `ConnectImpl`.
* The socket, the codec and the read goroutine are external: a socket or codec is a handle
  (a number), the outcome of `net.Dial` and of the codec's `Write` is an argument of the
  method that performs it, and every write, close and goroutine start is logged.
* `map[int32]*RequestRecord` is `Option (AList ...)`: `none` is the nil map.  Reading or
  deleting from the nil map is allowed, assigning into it is a run-time failure.  `range`
  visits the entries in the order of the association list (Go leaves the order open).
* `int32` is `Int` with explicit wrap-around (`wrapInt32`), `uint8` is `Nat`.
* A run-time failure (nil func call, nil map assignment, nil codec) is `ret = none`; the
  effects performed before the failure stay in the log.
-/

namespace GoLilyPad
namespace Client

/-- A Go interface value: `nil` or an object. -/
inductive Value where
  | nil
  | obj (n : Nat)
  deriving DecidableEq, Repr

/-- The interface `connect.Request`. -/
abbrev Request := Value

/-- The interface `connect.Result`. -/
abbrev Result := Value

/-- A Go `error` value (nil error is `none : Option Error`). -/
abbrev Error := String

/-- The func type `RequestCallback`: `none` is the nil func. -/
abbrev RequestCallback := Option Nat

/-- The struct `RequestRecord{request, callback}`. -/
structure RequestRecord where
  request : Request
  callback : RequestCallback
  deriving DecidableEq, Repr

/-- Decoded packets, by kind (`packet.Id()`). -/
inductive Packet where
  | keepalive
  | request (sequenceId : Int) (request : Request)
  | result (sequenceId : Int) (statusCode : Nat) (result : Result)
  | messageEvent (payload : Nat)
  | redirectEvent (payload : Nat)
  | serverEvent (payload : Nat)
  | unknown (id : Nat)
  deriving DecidableEq, Repr

/-- Externally visible effects, logged in the order they happen. -/
inductive Effect where
  | call (callback : Nat) (statusCode : Nat) (result : Result)
  | write (p : Packet)
  | close (conn : Nat)
  | readConn (codec : Nat)
  | event (topic : String) (payload : Nat)
  deriving DecidableEq, Repr

/-- The type `map[int32]*RequestRecord`; `none` is the nil map. -/
abbrev Records := Option (AList (fun _ : Int => RequestRecord))

/-- Map read `m[k]` with the comma-ok form: the nil map has no key. -/
def Records.get (m : Records) (k : Int) : Option RequestRecord :=
  match m with
  | none => none
  | some t => t.lookup k

/-- Map assignment `m[k] = v`: `none` is the run-time failure on the nil map. -/
def Records.set (m : Records) (k : Int) (v : RequestRecord) : Option Records :=
  match m with
  | none => none
  | some t => some (some (t.insert k v))

/-- The builtin `delete(m, k)`: a no-op on the nil map. -/
def Records.delete (m : Records) (k : Int) : Records :=
  match m with
  | none => none
  | some t => some (t.erase k)

/-- The entries a `range` loop visits (none for the nil map). -/
def Records.entries (m : Records) : List (Sigma (fun _ : Int => RequestRecord)) :=
  match m with
  | none => []
  | some t => t.entries

/-- The struct `ConnectImpl` (the embedded `EventDispatcher` is external). -/
structure ConnectImpl where
  conn : Option Nat
  connCodec : Option Nat
  records : Records
  sequenceId : Int
  deriving DecidableEq

/-- The outcome of a method call: the receiver afterwards, the effect log afterwards, and
the returned value (`none` when the call ended in a run-time failure). -/
structure Out (α : Type) where
  self : ConnectImpl
  log : List Effect
  ret : Option α

/-- Two's-complement wrap-around of `int32` arithmetic. -/
def wrapInt32 (x : Int) : Int := (x + 2147483648) % 4294967296 - 2147483648

/-- `NewConnect()`: the zero-valued `ConnectImpl`. -/
def NewConnect : ConnectImpl :=
  { conn := none, connCodec := none, records := none, sequenceId := 0 }

/-- `Connected()`: `this.conn != nil`. -/
def Connected (self : ConnectImpl) : Bool := self.conn.isSome

/-- The loop `for _, record := range this.records { record.callback(255, nil) }`:
returns the log and whether the loop completed (calling a nil func fails). -/
def drain : List (Sigma (fun _ : Int => RequestRecord)) → List Effect → List Effect × Bool
  | [], log => (log, true)
  | e :: rest, log =>
    match e.2.callback with
    | none => (log, false)
    | some f => drain rest (log ++ [Effect.call f 255 Value.nil])

/-- `Disconnect()`. -/
def Disconnect (self : ConnectImpl) (log : List Effect) : Out Unit :=
  match drain self.records.entries log with
  | (log1, false) => { self := self, log := log1, ret := none }
  | (log1, true) =>
    let log2 := match self.conn with
      | some c => log1 ++ [Effect.close c]
      | none => log1
    { self := { self with records := none, conn := none }, log := log2, ret := some () }

/-- `Connect(addr)`; `dial` is the outcome of `net.Dial("tcp", addr)`. -/
def Connect (self : ConnectImpl) (log : List Effect) (dial : Except Error Nat) :
    Out (Option Error) :=
  match Disconnect self log with
  | { self := s1, log := log1, ret := none } => { self := s1, log := log1, ret := none }
  | { self := s1, log := log1, ret := some _ } =>
    match dial with
    | Except.error err => { self := { s1 with conn := none }, log := log1, ret := some (some err) }
    | Except.ok c =>
      { self := { s1 with conn := some c, records := some ∅, connCodec := some c },
        log := log1 ++ [Effect.readConn c],
        ret := some none }

/-- `Write(packet)`: `this.connCodec.Write(packet)`.  The codec (`packet.PacketConnCodec`)
is external: `werr` is the error its `Write` returns (`none` for nil), and the attempt is
logged.  Calling it through a nil `connCodec` is taken to be a nil pointer dereference. -/
def Write (self : ConnectImpl) (log : List Effect) (p : Packet) (werr : Option Error) :
    Out (Option Error) :=
  match self.connCodec with
  | none => { self := self, log := log, ret := none }
  | some _ => { self := self, log := log ++ [Effect.write p], ret := some werr }

/-- `DispatchResult(sequenceId, statusCode, result)`. -/
def DispatchResult (self : ConnectImpl) (log : List Effect) (sequenceId : Int)
    (statusCode : Nat) (result : Result) : Out Unit :=
  match self.records.get sequenceId with
  | none => { self := self, log := log, ret := some () }
  | some record =>
    let log1 := match record.callback with
      | some f => log ++ [Effect.call f statusCode result]
      | none => log
    { self := { self with records := self.records.delete sequenceId }, log := log1,
      ret := some () }

/-- `RequestLater(request, callback)`; `werr` is the outcome of the codec write. -/
def RequestLater (self : ConnectImpl) (log : List Effect) (request : Request)
    (callback : RequestCallback) (werr : Option Error) : Out (Option Error) :=
  if !Connected self then
    { self := self, log := log, ret := some (some "Not connected") }
  else
    let sequenceId := wrapInt32 (self.sequenceId + 1)
    let s1 := { self with sequenceId := sequenceId }
    match Write s1 log (Packet.request sequenceId request) werr with
    | { self := s2, log := log2, ret := none } => { self := s2, log := log2, ret := none }
    | { self := s2, log := log2, ret := some (some err) } =>
      { self := s2, log := log2, ret := some (some err) }
    | { self := s2, log := log2, ret := some none } =>
      match s2.records.set sequenceId { request := request, callback := callback } with
      | none => { self := s2, log := log2, ret := none }
      | some m => { self := { s2 with records := m }, log := log2, ret := some none }

/-- `HandlePacket(packet)`; `werr` is the outcome of the keepalive echo, when one is made. -/
def HandlePacket (self : ConnectImpl) (log : List Effect) (p : Packet) (werr : Option Error) :
    Out (Option Error) :=
  match p with
  | Packet.keepalive =>
    match Write self log p werr with
    | { self := s1, log := log1, ret := none } => { self := s1, log := log1, ret := none }
    | { self := s1, log := log1, ret := some _ } => { self := s1, log := log1, ret := some none }
  | Packet.result sequenceId statusCode result =>
    match DispatchResult self log sequenceId statusCode result with
    | { self := s1, log := log1, ret := none } => { self := s1, log := log1, ret := none }
    | { self := s1, log := log1, ret := some _ } => { self := s1, log := log1, ret := some none }
  | Packet.messageEvent payload =>
    { self := self, log := log ++ [Effect.event "message" payload], ret := some none }
  | Packet.redirectEvent payload =>
    { self := self, log := log ++ [Effect.event "redirect" payload], ret := some none }
  | Packet.serverEvent payload =>
    { self := self, log := log ++ [Effect.event "server" payload], ret := some none }
  | _ => { self := self, log := log, ret := some none }

/-- `ErrorCaught(err)`: `this.Disconnect()`. -/
def ErrorCaught (self : ConnectImpl) (log : List Effect) : Out Unit :=
  Disconnect self log

/-- The closure `Request` hands to `RequestLater`: the values it sends, in order, on
`statusCodeChannel` and on `resultChannel` when it is invoked with `(statusCode, result)`. -/
def ConnectImpl.Request.callback (request : Request) (statusCode : Nat) (_result : Result) :
    Nat × Result :=
  (statusCode, request)

/-! ## Sequential runs -/

/-- One method call on the `ConnectImpl`, with the outcome of the external operation it
performs (the dial, the codec write). -/
inductive Step where
  | connect (dial : Except Error Nat)
  | disconnect
  | requestLater (request : Request) (callback : RequestCallback) (werr : Option Error)
  | dispatchResult (sequenceId : Int) (statusCode : Nat) (result : Result)
  | handlePacket (p : Packet) (werr : Option Error)
  | errorCaught

/-- The instance, the effects so far, and whether a run-time failure has ended the run. -/
structure World where
  self : ConnectImpl
  log : List Effect
  failed : Bool
  deriving DecidableEq

/-- The world a method call leaves behind. -/
def Out.world {α : Type} (o : Out α) : World :=
  { self := o.self, log := o.log, failed := o.ret.isNone }

/-- Perform one method call. -/
def step (w : World) : Step → World
  | Step.connect dial => (Connect w.self w.log dial).world
  | Step.disconnect => (Disconnect w.self w.log).world
  | Step.requestLater request callback werr =>
    (RequestLater w.self w.log request callback werr).world
  | Step.dispatchResult sequenceId statusCode result =>
    (DispatchResult w.self w.log sequenceId statusCode result).world
  | Step.handlePacket p werr => (HandlePacket w.self w.log p werr).world
  | Step.errorCaught => (ErrorCaught w.self w.log).world

/-- Perform the calls one after the other; a run-time failure ends the run. -/
def run (w : World) : List Step → World
  | [] => w
  | s :: rest => if w.failed then w else run (step w s) rest

/-- The world of a fresh `NewConnect()`. -/
def initial : World := { self := NewConnect, log := [], failed := false }

/-- Worlds a sequential run can reach from `NewConnect()`. -/
def Reachable (w : World) : Prop := ∃ steps : List Step, run initial steps = w

/-- Is the effect an invocation of the callback `f`? -/
def isCallOf (f : Nat) : Effect → Bool
  | Effect.call g _ _ => g == f
  | _ => false

/-- How often the callback `f` has been invoked. -/
def fired (f : Nat) (log : List Effect) : Nat := log.countP (isCallOf f)

/-- How many records of the table hold the callback `f`. -/
def pending (f : Nat) (m : Records) : Nat :=
  m.entries.countP (fun e => e.2.callback == some f)

/-- Does the step call `RequestLater` with the callback `f`? -/
def registers (f : Nat) : Step → Bool
  | Step.requestLater _ callback _ => callback == some f
  | _ => false

/-- Is the step a `RequestLater` call? -/
def isRequestLater : Step → Bool
  | Step.requestLater _ _ _ => true
  | _ => false

/-- The shape every instance of a sequential run has: a connected instance has its table and
its codec installed, and the counter is an `int32`. -/
def WellFormed (self : ConnectImpl) : Prop :=
  (self.conn.isSome = true → self.records.isSome = true ∧ self.connCodec.isSome = true) ∧
  -2147483648 ≤ self.sequenceId ∧ self.sequenceId ≤ 2147483647

/-- What a call of `Request` comes to: it returns, or it waits on its channel forever. -/
inductive RequestOutcome where
  | returned (statusCode : Nat) (result : Result) (err : Option Error)
  | blocked
  deriving DecidableEq, Repr

/-- `Request(request)`.  `f` names the closure that `Request` creates, `werr` is the outcome
of the codec write, and `fired` holds the arguments with which the closure is eventually
invoked by `DispatchResult` or `Disconnect` (`none`: it never is).  On a `RequestLater`
error the named results are returned as they stand: `(0, nil, err)`. -/
def ConnectImpl.Request (self : ConnectImpl) (log : List Effect) (request : Request) (f : Nat)
    (werr : Option Error) (fired : Option (Nat × Result)) : Out RequestOutcome :=
  match RequestLater self log request (some f) werr with
  | { self := s1, log := log1, ret := none } => { self := s1, log := log1, ret := none }
  | { self := s1, log := log1, ret := some (some err) } =>
    { self := s1, log := log1, ret := some (RequestOutcome.returned 0 Value.nil (some err)) }
  | { self := s1, log := log1, ret := some none } =>
    match fired with
    | none => { self := s1, log := log1, ret := some RequestOutcome.blocked }
    | some (statusCode, result) =>
      let sent := ConnectImpl.Request.callback request statusCode result
      { self := s1, log := log1, ret := some (RequestOutcome.returned sent.1 sent.2 none) }

/-- Every key of the table is one of the last `n` values the counter has taken. -/
def KeysWithin (n : Nat) (self : ConnectImpl) : Prop :=
  ∀ e ∈ self.records.entries, ∃ j : Nat, j < n ∧ e.1 = wrapInt32 (self.sequenceId - j)

/-- A connected instance with two pending records. -/
def sampleTwo : ConnectImpl :=
  { conn := some 1, connCodec := some 1,
    records := some (AList.insert 2 ⟨Value.obj 5, some 8⟩ (AList.insert 1 ⟨Value.obj 4, some 7⟩ ∅)),
    sequenceId := 2 }

/-- A connected instance whose record 1 was registered with a nil callback. -/
def sampleNil : ConnectImpl :=
  { conn := some 1, connCodec := some 1,
    records := some (AList.insert 2 ⟨Value.obj 5, some 8⟩ (AList.insert 1 ⟨Value.obj 4, none⟩ ∅)),
    sequenceId := 2 }

end Client

/-!
# GoLilyPad: the server configurations

`server/proxy/main/config/config.go` (the `Route` family) and
`server/connect/main/config/config.go` (`Authenticate`).

Modelling conventions
* `strings.ToLower`, `regexp.Compile`, `(*regexp.Regexp).MatchString` and
  `connect.PasswordAndSaltHash` are not part of these sources: they are arguments of the
  functions that call them.
* A Go slice field that may be nil is an `Option (List _)`; `none` is the nil slice.
* `map[string]ConfigProxyRoute` is only assigned into and read with the comma-ok form, so
  it is an association list in which the newest assignment for a key comes first; the nil
  map is `none`.
* A `Route` function returns its result together with the configuration afterwards (the
  first call builds the private lookup table).  The mutex plays no part in a sequential run.
-/

namespace Server
namespace Proxy

/-- The struct `ConfigConnectCredentials`. -/
structure ConfigConnectCredentials where
  Username : String
  Password : String
  deriving DecidableEq, Repr

/-- The struct `ConfigConnect`. -/
structure ConfigConnect where
  Address : String
  Credentials : ConfigConnectCredentials
  deriving DecidableEq, Repr

/-- The struct `ConfigProxyLocale`. -/
structure ConfigProxyLocale where
  Full : String
  Offline : String
  LoggedIn : String
  LostConn : String
  Shutdown : String
  deriving DecidableEq, Repr

/-- The struct `ConfigProxyRoute`. -/
structure ConfigProxyRoute where
  Domain : String
  Server : String
  Servers : Option (List String)
  Motd : String
  Motds : Option (List String)
  Icon : String
  Icons : Option (List String)
  Sample : String
  deriving DecidableEq, Repr

/-- The type `map[string]ConfigProxyRoute` (non-nil). -/
abbrev RouteMap := List (String × ConfigProxyRoute)

/-- Map assignment `m[k] = v`. -/
def RouteMap.set (m : RouteMap) (k : String) (v : ConfigProxyRoute) : RouteMap := (k, v) :: m

/-- Map read `m[k]` with the comma-ok form; the nil map has no key. -/
def RouteMap.get (m : Option RouteMap) (k : String) : Option ConfigProxyRoute :=
  match m with
  | none => none
  | some t => t.lookup k

/-- The struct `ConfigProxy` (without its mutex). -/
structure ConfigProxy where
  Bind : String
  Routes : List ConfigProxyRoute
  routes : Option RouteMap
  Locale : ConfigProxyLocale
  Motd : String
  MaxPlayers : Nat
  Authenticate : Bool
  deriving DecidableEq, Repr

/-- The struct `Config` of the proxy. -/
structure Config where
  Connect : ConfigConnect
  Proxy : ConfigProxy
  deriving DecidableEq, Repr

/-- The loop `for _, route := range this.Proxy.Routes { routes[ToLower(route.Domain)] = route }`
on a fresh map. -/
def buildRoutes (ToLower : String → String) (Routes : List ConfigProxyRoute) : RouteMap :=
  Routes.foldl (fun routes route => RouteMap.set routes (ToLower route.Domain) route) []

/-- The block at the head of each `Route` function: build the lookup table when it is nil. -/
def loadRoutes (ToLower : String → String) (this : Config) : Config :=
  match this.Proxy.routes with
  | some _ => this
  | none =>
    { this with Proxy := { this.Proxy with routes := some (buildRoutes ToLower this.Proxy.Routes) } }

/-- The body of `Route`; `again` stands for the recursive call `this.Route("")`. -/
def Route.body (ToLower : String → String) (again : Config → List String × Config)
    (this : Config) (domain : String) : List String × Config :=
  let this1 := loadRoutes ToLower this
  match RouteMap.get this1.Proxy.routes (ToLower domain) with
  | some route =>
    match route.Servers with
    | none =>
      if route.Server.length = 0 then ([], this1) else ([route.Server], this1)
    | some servers => (servers, this1)
  | none =>
    if domain ≠ "" then again this1 else ([], this1)

/-- `Route(domain)`.  The recursive call is made with `""`, which makes no further call, so
the recursion is unrolled twice (see `Route_rec`). -/
def Route (ToLower : String → String) (this : Config) (domain : String) :
    List String × Config :=
  Route.body ToLower (fun c => Route.body ToLower (fun c1 => ([], c1)) c "") this domain

/-- The body of `RouteMotds`; `again` stands for the recursive call `this.RouteMotds("")`. -/
def RouteMotds.body (ToLower : String → String) (again : Config → List String × Config)
    (this : Config) (domain : String) : List String × Config :=
  let this1 := loadRoutes ToLower this
  let rest : List String × Config :=
    if domain ≠ "" then again this1 else ([this1.Proxy.Motd], this1)
  match RouteMap.get this1.Proxy.routes (ToLower domain) with
  | some route =>
    match route.Motds with
    | some motds => (motds, this1)
    | none => if route.Motd.length > 0 then ([route.Motd], this1) else rest
  | none => rest

/-- `RouteMotds(domain)`. -/
def RouteMotds (ToLower : String → String) (this : Config) (domain : String) :
    List String × Config :=
  RouteMotds.body ToLower (fun c => RouteMotds.body ToLower (fun c1 => ([], c1)) c "") this domain

/-- The body of `RouteIcons`; `again` stands for the recursive call `this.RouteIcons("")`. -/
def RouteIcons.body (ToLower : String → String) (again : Config → List String × Config)
    (this : Config) (domain : String) : List String × Config :=
  let this1 := loadRoutes ToLower this
  let rest : List String × Config :=
    if domain ≠ "" then again this1 else (["server-icon.png"], this1)
  match RouteMap.get this1.Proxy.routes (ToLower domain) with
  | some route =>
    match route.Icons with
    | some icons => (icons, this1)
    | none => if route.Icon.length > 0 then ([route.Icon], this1) else rest
  | none => rest

/-- `RouteIcons(domain)`. -/
def RouteIcons (ToLower : String → String) (this : Config) (domain : String) :
    List String × Config :=
  RouteIcons.body ToLower (fun c => RouteIcons.body ToLower (fun c1 => ([], c1)) c "") this domain

/-- The body of `RouteSample`; `again` stands for the recursive call `this.RouteSample("")`. -/
def RouteSample.body (ToLower : String → String) (again : Config → String × Config)
    (this : Config) (domain : String) : String × Config :=
  let this1 := loadRoutes ToLower this
  let rest : String × Config :=
    if domain ≠ "" then again this1 else ("sample.txt", this1)
  match RouteMap.get this1.Proxy.routes (ToLower domain) with
  | some route => if route.Sample ≠ "" then (route.Sample, this1) else rest
  | none => rest

/-- `RouteSample(domain)`. -/
def RouteSample (ToLower : String → String) (this : Config) (domain : String) :
    String × Config :=
  RouteSample.body ToLower (fun c => RouteSample.body ToLower (fun c1 => ("", c1)) c "") this domain

/-- The lookup table is not built yet, or it is the one built from `Routes`: the only two
shapes it takes as long as `Routes` is left alone after the first call. -/
def CacheValid (ToLower : String → String) (this : Config) : Prop :=
  this.Proxy.routes = none ∨ this.Proxy.routes = some (buildRoutes ToLower this.Proxy.Routes)

/-- What `Route` returns for a route that was found. -/
def serversOf (route : ConfigProxyRoute) : List String :=
  match route.Servers with
  | some servers => servers
  | none => if route.Server.length = 0 then [] else [route.Server]

/-- What `RouteMotds` takes from a route that was found, if anything. -/
def motdsOf (route : ConfigProxyRoute) : Option (List String) :=
  match route.Motds with
  | some motds => some motds
  | none => if route.Motd.length > 0 then some [route.Motd] else none

/-- What `RouteIcons` takes from a route that was found, if anything. -/
def iconsOf (route : ConfigProxyRoute) : Option (List String) :=
  match route.Icons with
  | some icons => some icons
  | none => if route.Icon.length > 0 then some [route.Icon] else none

/-- What `RouteSample` takes from a route that was found, if anything. -/
def sampleOf (route : ConfigProxyRoute) : Option String :=
  if route.Sample ≠ "" then some route.Sample else none

/-- The pattern the four `Route` functions share, in the words of the specification:
case-insensitive match, then the wildcard (empty-domain) route, then a fixed default. -/
def withFallback {α : Type} (value : ConfigProxyRoute → Option α) (dflt : α)
    (ToLower : String → String) (routes : Option RouteMap) (domain : String) : α :=
  match (RouteMap.get routes (ToLower domain)).bind value with
  | some v => v
  | none =>
    match (RouteMap.get routes (ToLower "")).bind value with
    | some v => v
    | none => dflt

/-- `DefaultConfig()` of the proxy. -/
def DefaultConfig : Config :=
  { Connect := { Address := "127.0.0.1:5091",
                 Credentials := { Username := "example", Password := "example" } },
    Proxy := {
      Bind := ":25565",
      Routes := [
        { Domain := "", Server := "example", Servers := none, Motd := "", Motds := none,
          Icon := "", Icons := none, Sample := "" },
        { Domain := "example.com", Server := "", Servers := some ["hub1", "hub2"],
          Motd := "Example Custom MOTD", Motds := none, Icon := "", Icons := none, Sample := "" },
        { Domain := "hub.exmaple.com", Server := "hub", Servers := none, Motd := "",
          Motds := some ["Example MOTD 1", "Example MOTD 2"], Icon := "", Icons := none,
          Sample := "" },
        { Domain := "icon.exmaple.com", Server := "hub", Servers := none, Motd := "",
          Motds := none, Icon := "icon.png",
          Icons := some ["icon1.png", "icon2.png", "icons/icon3.png"], Sample := "" }],
      routes := none,
      Locale := {
        Full := "The server seems to be currently full. Try again later!",
        Offline := "The requested server is currently offline. Try again later!",
        LoggedIn := "You seem to be logged in already. Try again later!",
        LostConn := "Lost connection... Please try to reconnect",
        Shutdown := "The server is being restarted. Please try to reconnect" },
      Motd := "A LilyPad Server",
      MaxPlayers := 1,
      Authenticate := true } }

/-- Lower-casing of ASCII letters, which is what `strings.ToLower` does on ASCII text; the
sample instance of the `ToLower` argument. -/
def asciiToLower (s : String) : String := String.mk (s.data.map Char.toLower)

/-- A configuration with two routes under the same lower-case domain and a wildcard. -/
def sampleShadowed : Config :=
  { DefaultConfig with
    Proxy := { DefaultConfig.Proxy with
      Routes := [
        { Domain := "", Server := "lobby", Servers := none, Motd := "", Motds := none,
          Icon := "", Icons := none, Sample := "" },
        { Domain := "hub.example.com", Server := "old", Servers := none, Motd := "",
          Motds := none, Icon := "", Icons := none, Sample := "" },
        { Domain := "Hub.Example.com", Server := "", Servers := none, Motd := "",
          Motds := none, Icon := "", Icons := none, Sample := "" }] } }

end Proxy

namespace Connect

/-- The struct `ConfigLogin`; `R` is the type of a compiled `regexp.Regexp`, and a nil
`regexp` pointer is `none`. -/
structure ConfigLogin (R : Type) where
  Username : String
  Regexp : String
  regexp : Option R
  Password : String

/-- The struct `Config` of the connect server. -/
structure Config (R : Type) where
  Bind : String
  Logins : List (ConfigLogin R)

/-- The loop of `Authenticate` over the logins still to visit; the result is `(ok, err)`.
`Compile` is `regexp.Compile`, `MatchString` is `(*regexp.Regexp).MatchString`. -/
def Authenticate.loop {R : Type} (Compile : String → Except String R)
    (MatchString : R → String → Bool) (PasswordAndSaltHash : String → String → String)
    (username password passwordSalt : String) : List (ConfigLogin R) → Bool × Option String
  | [] => (false, none)
  | login :: rest =>
    if login.Username.length ≠ 0 ∧ login.Username = username then
      if PasswordAndSaltHash login.Password passwordSalt = password then (true, none)
      else Authenticate.loop Compile MatchString PasswordAndSaltHash username password
        passwordSalt rest
    else if login.Regexp.length ≠ 0 then
      match (match login.regexp with
        | some r => Except.ok r
        | none => Compile login.Regexp) with
      | Except.error err => (false, some err)
      | Except.ok r =>
        if MatchString r username = true then
          if PasswordAndSaltHash login.Password passwordSalt = password then (true, none)
          else Authenticate.loop Compile MatchString PasswordAndSaltHash username password
            passwordSalt rest
        else Authenticate.loop Compile MatchString PasswordAndSaltHash username password
          passwordSalt rest
    else Authenticate.loop Compile MatchString PasswordAndSaltHash username password
      passwordSalt rest

/-- `Authenticate(username, password, passwordSalt)`: the result is `(ok, err)`. -/
def Authenticate {R : Type} (Compile : String → Except String R)
    (MatchString : R → String → Bool) (PasswordAndSaltHash : String → String → String)
    (this : Config R) (username password passwordSalt : String) : Bool × Option String :=
  Authenticate.loop Compile MatchString PasswordAndSaltHash username password passwordSalt
    this.Logins

/-- The compiled expression the loop uses for a rule: the one it holds, else the outcome of
compiling `Regexp`. -/
def ConfigLogin.matcher {R : Type} (Compile : String → Except String R)
    (login : ConfigLogin R) : Except String R :=
  match login.regexp with
  | some r => Except.ok r
  | none => Compile login.Regexp

/-- The rule's non-empty `Username` equals the username. -/
def ConfigLogin.NameMatches {R : Type} (username : String) (login : ConfigLogin R) : Prop :=
  login.Username.length ≠ 0 ∧ login.Username = username

/-- The rule matches the username: its non-empty `Username` equals it, or its non-empty
`Regexp` matches it. -/
def ConfigLogin.Matches {R : Type} (Compile : String → Except String R)
    (MatchString : R → String → Bool) (username : String) (login : ConfigLogin R) : Prop :=
  login.NameMatches username ∨
    (login.Regexp.length ≠ 0 ∧
      ∃ r : R, login.matcher Compile = Except.ok r ∧ MatchString r username = true)

/-- The rule's regular expression has to be used (its `Username` does not match exactly and
its `Regexp` is non-empty) and fails to compile, with the error `err`. -/
def ConfigLogin.FailsWith {R : Type} (Compile : String → Except String R) (username : String)
    (err : String) (login : ConfigLogin R) : Prop :=
  ¬ login.NameMatches username ∧ login.Regexp.length ≠ 0 ∧
    login.matcher Compile = Except.error err

/-- The rule accepts: it matches the username and its stored password, hashed with the
salt, equals the supplied password. -/
def ConfigLogin.Accepts {R : Type} (Compile : String → Except String R)
    (MatchString : R → String → Bool) (PasswordAndSaltHash : String → String → String)
    (username password passwordSalt : String) (login : ConfigLogin R) : Prop :=
  login.Matches Compile MatchString username ∧
    PasswordAndSaltHash login.Password passwordSalt = password

/-- `DefaultConfig()` of the connect server. -/
def DefaultConfig : Config String :=
  { Bind := ":5091",
    Logins := [
      { Username := "example", Regexp := "", regexp := none, Password := "example" },
      { Username := "", Regexp := "^example-.*$", regexp := none, Password := "example" }] }

/-- A sample `regexp.Compile`: every expression compiles to itself, except `"("`. -/
def sampleCompile (expr : String) : Except String String :=
  if expr = "(" then Except.error "missing closing )" else Except.ok expr

/-- A sample `MatchString`: an expression matches the strings that start with it. -/
def sampleMatchString (r : String) (s : String) : Bool := r.data.isPrefixOf s.data

/-- A sample `PasswordAndSaltHash`: the password followed by the salt. -/
def sampleHash (password salt : String) : String := password ++ salt

/-- Two rules for the same user with different passwords, then a rule whose expression
does not compile. -/
def sampleLogins : Config String :=
  { Bind := ":5091",
    Logins := [
      { Username := "admin", Regexp := "(", regexp := none, Password := "old" },
      { Username := "admin", Regexp := "", regexp := none, Password := "new" },
      { Username := "", Regexp := "(", regexp := none, Password := "x" }] }

end Connect

end Server

namespace Client

/-! ## Disconnect -/

theorem drain_complete (es : List (Sigma (fun _ : Int => RequestRecord))) :
    ∀ log : List Effect, (∀ e ∈ es, e.2.callback ≠ none) → (drain es log).2 = true := by
  induction es with
  | nil => intro log _; rfl
  | cons e rest ih =>
    intro log h
    have he := h e (List.mem_cons_self _ _)
    cases hc : e.2.callback with
    | none => exact absurd hc he
    | some f =>
      simp only [drain, hc]
      exact ih _ (fun x hx => h x (List.mem_cons_of_mem _ hx))

theorem drain_calls (es : List (Sigma (fun _ : Int => RequestRecord))) :
    ∀ log : List Effect, (drain es log).2 = true →
      ∃ fs : List Nat, es.map (fun e => e.2.callback) = fs.map some ∧
        (drain es log).1 = log ++ fs.map (fun f => Effect.call f 255 Value.nil) := by
  induction es with
  | nil => intro log _; exact ⟨[], rfl, by simp [drain]⟩
  | cons e rest ih =>
    intro log h
    cases hc : e.2.callback with
    | none => simp [drain, hc] at h
    | some f =>
      simp only [drain, hc] at h ⊢
      obtain ⟨fs, h1, h2⟩ := ih _ h
      refine ⟨f :: fs, ?_, ?_⟩
      · simp [hc, h1]
      · simp [h2]

theorem Disconnect_ret (self : ConnectImpl) (log : List Effect) :
    (Disconnect self log).ret = some () ↔ (drain self.records.entries log).2 = true := by
  unfold Disconnect
  rcases hd : drain self.records.entries log with ⟨log1, b⟩
  cases b <;> simp

theorem Disconnect_ok (self : ConnectImpl) (log : List Effect)
    (h : (drain self.records.entries log).2 = true) :
    Disconnect self log =
      { self := { self with records := none, conn := none },
        log := (drain self.records.entries log).1 ++
          (match self.conn with
            | some c => [Effect.close c]
            | none => []),
        ret := some () } := by
  unfold Disconnect
  rcases hd : drain self.records.entries log with ⟨log1, b⟩
  rw [hd] at h
  simp only at h
  subst h
  cases self.conn <;> simp

theorem Disconnect_failed (self : ConnectImpl) (log : List Effect)
    (h : (drain self.records.entries log).2 = false) :
    Disconnect self log =
      { self := self, log := (drain self.records.entries log).1, ret := none } := by
  unfold Disconnect
  rcases hd : drain self.records.entries log with ⟨log1, b⟩
  rw [hd] at h
  simp only at h
  subst h
  rfl

/-- C2: for every state, `Disconnect` returns whenever no pending record holds a nil
callback, and whenever it returns the log has grown by exactly one `(255, nil)` invocation
per record that was in the table (one for each entry, nothing else but the socket close),
the table is the discarded nil map, which has no entry, and `Connected()` is false. -/
theorem Disconnect_resolves_every_pending_record (self : ConnectImpl) (log : List Effect) :
    ((∀ e ∈ self.records.entries, e.2.callback ≠ none) → (Disconnect self log).ret = some ()) ∧
    ((Disconnect self log).ret = some () →
      ∃ fs : List Nat,
        self.records.entries.map (fun e => e.2.callback) = fs.map some ∧
        (Disconnect self log).log =
          log ++ fs.map (fun f => Effect.call f 255 Value.nil) ++
            (match self.conn with
              | some c => [Effect.close c]
              | none => []) ∧
        (Disconnect self log).self.records = none ∧
        (Disconnect self log).self.records.entries = [] ∧
        Connected (Disconnect self log).self = false) := by
  constructor
  · intro h
    exact (Disconnect_ret self log).2 (drain_complete _ log h)
  · intro h
    have hd := (Disconnect_ret self log).1 h
    obtain ⟨fs, h1, h2⟩ := drain_calls _ log hd
    refine ⟨fs, h1, ?_, ?_, ?_, ?_⟩
    · rw [Disconnect_ok self log hd, h2]
    · rw [Disconnect_ok self log hd]
    · rw [Disconnect_ok self log hd]; rfl
    · rw [Disconnect_ok self log hd]; rfl

/-- Witness of C2 on a connected instance with two pending records. -/
theorem Disconnect_resolves_every_pending_record_witness :
    (Disconnect sampleTwo []).ret = some () ∧
    ∃ fs : List Nat,
      sampleTwo.records.entries.map (fun e => e.2.callback) = fs.map some ∧
      (Disconnect sampleTwo []).log =
        [] ++ fs.map (fun f => Effect.call f 255 Value.nil) ++
          (match sampleTwo.conn with
            | some c => [Effect.close c]
            | none => []) ∧
      (Disconnect sampleTwo []).self.records = none ∧
      (Disconnect sampleTwo []).self.records.entries = [] ∧
      Connected (Disconnect sampleTwo []).self = false :=
  ⟨(Disconnect_resolves_every_pending_record sampleTwo []).1 (by decide),
   (Disconnect_resolves_every_pending_record sampleTwo []).2 (by decide)⟩

/-- C10: when a first `Disconnect` has returned, a second one right after it returns too,
adds nothing to the log (no callback, no close) and leaves every field as it was; the
instance is disconnected after the first call, and a fresh `NewConnect()` is disconnected
before and after `Disconnect`. -/
theorem Disconnect_idempotent (self : ConnectImpl) (log : List Effect)
    (h : (Disconnect self log).ret = some ()) :
    Disconnect (Disconnect self log).self (Disconnect self log).log =
      { self := (Disconnect self log).self, log := (Disconnect self log).log, ret := some () } ∧
    Connected (Disconnect self log).self = false ∧
    Connected NewConnect = false ∧
    Disconnect NewConnect log = { self := NewConnect, log := log, ret := some () } := by
  have hd := (Disconnect_ret self log).1 h
  rw [Disconnect_ok self log hd]
  refine ⟨?_, rfl, rfl, rfl⟩
  rfl

/-- Witness of C10 on a connected instance with two pending records. -/
theorem Disconnect_idempotent_witness :
    (Disconnect sampleTwo []).ret = some () ∧
    Disconnect (Disconnect sampleTwo []).self (Disconnect sampleTwo []).log =
      { self := (Disconnect sampleTwo []).self, log := (Disconnect sampleTwo []).log,
        ret := some () } :=
  ⟨by decide, (Disconnect_idempotent sampleTwo [] (by decide)).1⟩

/-! ## DispatchResult and RequestLater -/

theorem Records.get_none_iff (m : Records) (k : Int) :
    m.get k = none ↔ ∀ e ∈ m.entries, e.1 ≠ k := by
  cases m with
  | none => simp [Records.get, Records.entries]
  | some t =>
    simp only [Records.get, Records.entries, AList.lookup_eq_none, AList.mem_keys, AList.keys,
      List.keys, List.mem_map, not_exists, not_and]

theorem Records.get_delete_self (m : Records) (k : Int) : (m.delete k).get k = none := by
  cases m with
  | none => rfl
  | some t => simp [Records.get, Records.delete, AList.lookup_erase]

theorem Records.get_delete_ne (m : Records) {k j : Int} (h : j ≠ k) :
    (m.delete k).get j = m.get j := by
  cases m with
  | none => rfl
  | some t => simp [Records.get, Records.delete, AList.lookup_erase_ne h]

theorem DispatchResult_absent (self : ConnectImpl) (log : List Effect) (sequenceId : Int)
    (statusCode : Nat) (result : Result) (h : self.records.get sequenceId = none) :
    DispatchResult self log sequenceId statusCode result =
      { self := self, log := log, ret := some () } := by
  simp [DispatchResult, h]

theorem DispatchResult_present (self : ConnectImpl) (log : List Effect) (sequenceId : Int)
    (statusCode : Nat) (result : Result) (record : RequestRecord)
    (h : self.records.get sequenceId = some record) :
    DispatchResult self log sequenceId statusCode result =
      { self := { self with records := self.records.delete sequenceId },
        log := log ++
          (match record.callback with
            | some f => [Effect.call f statusCode result]
            | none => []),
        ret := some () } := by
  cases hc : record.callback <;> simp [DispatchResult, h, hc]

/-- C3 (counterexample): the table of `sampleNil` holds a record under sequence id 1, yet
`DispatchResult(1, 0, result)` invokes no callback at all: the record was registered with a
nil callback, which `DispatchResult` skips. -/
theorem DispatchResult_nil_callback_not_invoked :
    sampleNil.records.get 1 = some { request := Value.obj 4, callback := none } ∧
    (DispatchResult sampleNil [] 1 0 (Value.obj 9)).log = [] ∧
    (DispatchResult sampleNil [] 1 0 (Value.obj 9)).self.records.get 1 = none := by
  decide

/-- C3 (amended): when the table holds a record under `sequenceId`, `DispatchResult`
returns, invokes that record's callback exactly once with `(statusCode, result)` when the
callback is non-nil and invokes nothing when it is nil, invokes no other callback, removes
the entry for `sequenceId`, and leaves every other entry and every other field unchanged. -/
theorem DispatchResult_resolves_record (self : ConnectImpl) (log : List Effect)
    (sequenceId : Int) (statusCode : Nat) (result : Result) (record : RequestRecord)
    (h : self.records.get sequenceId = some record) :
    (DispatchResult self log sequenceId statusCode result).ret = some () ∧
    (DispatchResult self log sequenceId statusCode result).log =
      log ++
        (match record.callback with
          | some f => [Effect.call f statusCode result]
          | none => []) ∧
    (DispatchResult self log sequenceId statusCode result).self.records.get sequenceId = none ∧
    (∀ k : Int, k ≠ sequenceId →
      (DispatchResult self log sequenceId statusCode result).self.records.get k =
        self.records.get k) ∧
    (DispatchResult self log sequenceId statusCode result).self.conn = self.conn ∧
    (DispatchResult self log sequenceId statusCode result).self.connCodec = self.connCodec ∧
    (DispatchResult self log sequenceId statusCode result).self.sequenceId = self.sequenceId := by
  rw [DispatchResult_present self log sequenceId statusCode result record h]
  exact ⟨rfl, rfl, Records.get_delete_self _ _, fun k hk => Records.get_delete_ne _ hk,
    rfl, rfl, rfl⟩

/-- Witness of C3 (amended) on the record with callback 8 under sequence id 2. -/
theorem DispatchResult_resolves_record_witness :
    sampleTwo.records.get 2 = some { request := Value.obj 5, callback := some 8 } ∧
    (DispatchResult sampleTwo [] 2 0 (Value.obj 9)).log = [Effect.call 8 0 (Value.obj 9)] ∧
    (DispatchResult sampleTwo [] 2 0 (Value.obj 9)).self.records.get 1 =
      sampleTwo.records.get 1 :=
  ⟨by decide,
   (DispatchResult_resolves_record sampleTwo [] 2 0 (Value.obj 9)
      { request := Value.obj 5, callback := some 8 } (by decide)).2.1,
   (DispatchResult_resolves_record sampleTwo [] 2 0 (Value.obj 9)
      { request := Value.obj 5, callback := some 8 } (by decide)).2.2.2.1 1 (by decide)⟩

/-- C4: for every state, the nil table included, and every `sequenceId` that is not a key
of the table, `DispatchResult` returns normally with the instance (table, counter and all
other fields) and the effect log (so no callback invoked) exactly as they were. -/
theorem DispatchResult_unknown_id_is_noop (self : ConnectImpl) (log : List Effect)
    (sequenceId : Int) (statusCode : Nat) (result : Result)
    (h : ∀ e ∈ self.records.entries, e.1 ≠ sequenceId) :
    DispatchResult self log sequenceId statusCode result =
      { self := self, log := log, ret := some () } :=
  DispatchResult_absent self log sequenceId statusCode result
    ((Records.get_none_iff _ _).2 h)

/-- Witness of C4: sequence id 3 is not pending in `sampleTwo`; nor is any id in the nil
table of `NewConnect()`. -/
theorem DispatchResult_unknown_id_is_noop_witness :
    DispatchResult sampleTwo [] 3 0 (Value.obj 9) =
      { self := sampleTwo, log := [], ret := some () } ∧
    DispatchResult NewConnect [] 3 0 (Value.obj 9) =
      { self := NewConnect, log := [], ret := some () } :=
  ⟨DispatchResult_unknown_id_is_noop sampleTwo [] 3 0 (Value.obj 9) (by decide),
   DispatchResult_unknown_id_is_noop NewConnect [] 3 0 (Value.obj 9) (by decide)⟩

/-- C5: for every state in which `Connected()` is false, `RequestLater` returns the error
"Not connected" and leaves the instance (counter, table) and the effect log (no write, no
callback invocation) exactly as they were. -/
theorem RequestLater_not_connected (self : ConnectImpl) (log : List Effect)
    (request : Request) (callback : RequestCallback) (werr : Option Error)
    (h : Connected self = false) :
    RequestLater self log request callback werr =
      { self := self, log := log, ret := some (some "Not connected") } := by
  simp [RequestLater, h]

/-- Witness of C5 on a fresh `NewConnect()`. -/
theorem RequestLater_not_connected_witness :
    RequestLater NewConnect [] (Value.obj 1) (some 7) none =
      { self := NewConnect, log := [], ret := some (some "Not connected") } :=
  RequestLater_not_connected NewConnect [] (Value.obj 1) (some 7) none (by decide)

/-! ## Characterisation of the remaining methods -/

theorem drain_grows (es : List (Sigma (fun _ : Int => RequestRecord))) :
    ∀ log : List Effect, ∃ fs : List Nat,
      (drain es log).1 = log ++ fs.map (fun f => Effect.call f 255 Value.nil) := by
  induction es with
  | nil => intro log; exact ⟨[], by simp [drain]⟩
  | cons e rest ih =>
    intro log
    cases hc : e.2.callback with
    | none => exact ⟨[], by simp [drain, hc]⟩
    | some f =>
      obtain ⟨fs, h⟩ := ih (log ++ [Effect.call f 255 Value.nil])
      exact ⟨f :: fs, by simp [drain, hc, h]⟩

theorem Connect_failed (self : ConnectImpl) (log : List Effect) (dial : Except Error Nat)
    (h : (drain self.records.entries log).2 = false) :
    Connect self log dial =
      { self := self, log := (drain self.records.entries log).1, ret := none } := by
  unfold Connect
  rw [Disconnect_failed self log h]

theorem Connect_dial_error (self : ConnectImpl) (log : List Effect) (err : Error)
    (h : (drain self.records.entries log).2 = true) :
    Connect self log (Except.error err) =
      { self := { self with records := none, conn := none },
        log := (Disconnect self log).log,
        ret := some (some err) } := by
  unfold Connect
  rw [Disconnect_ok self log h]

theorem Connect_dial_ok (self : ConnectImpl) (log : List Effect) (c : Nat)
    (h : (drain self.records.entries log).2 = true) :
    Connect self log (Except.ok c) =
      { self := { self with records := some ∅, conn := some c, connCodec := some c },
        log := (Disconnect self log).log ++ [Effect.readConn c],
        ret := some none } := by
  unfold Connect
  rw [Disconnect_ok self log h]

theorem RequestLater_no_codec (self : ConnectImpl) (log : List Effect) (request : Request)
    (callback : RequestCallback) (werr : Option Error)
    (hc : Connected self = true) (hk : self.connCodec = none) :
    RequestLater self log request callback werr =
      { self := { self with sequenceId := wrapInt32 (self.sequenceId + 1) },
        log := log, ret := none } := by
  simp [RequestLater, hc, Write, hk]

theorem RequestLater_write_error (self : ConnectImpl) (log : List Effect) (request : Request)
    (callback : RequestCallback) (err : Error) (k : Nat)
    (hc : Connected self = true) (hk : self.connCodec = some k) :
    RequestLater self log request callback (some err) =
      { self := { self with sequenceId := wrapInt32 (self.sequenceId + 1) },
        log := log ++ [Effect.write (Packet.request (wrapInt32 (self.sequenceId + 1)) request)],
        ret := some (some err) } := by
  simp [RequestLater, hc, Write, hk]

theorem RequestLater_nil_table (self : ConnectImpl) (log : List Effect) (request : Request)
    (callback : RequestCallback) (k : Nat)
    (hc : Connected self = true) (hk : self.connCodec = some k) (hr : self.records = none) :
    RequestLater self log request callback none =
      { self := { self with sequenceId := wrapInt32 (self.sequenceId + 1) },
        log := log ++ [Effect.write (Packet.request (wrapInt32 (self.sequenceId + 1)) request)],
        ret := none } := by
  simp [RequestLater, hc, Write, hk, hr, Records.set]

theorem RequestLater_ok (self : ConnectImpl) (log : List Effect) (request : Request)
    (callback : RequestCallback) (k : Nat) (t : AList (fun _ : Int => RequestRecord))
    (hc : Connected self = true) (hk : self.connCodec = some k) (hr : self.records = some t) :
    RequestLater self log request callback none =
      { self := { self with
          sequenceId := wrapInt32 (self.sequenceId + 1),
          records := some (t.insert (wrapInt32 (self.sequenceId + 1))
            { request := request, callback := callback }) },
        log := log ++ [Effect.write (Packet.request (wrapInt32 (self.sequenceId + 1)) request)],
        ret := some none } := by
  simp [RequestLater, hc, Write, hk, hr, Records.set]

theorem HandlePacket_result (self : ConnectImpl) (log : List Effect) (sequenceId : Int)
    (statusCode : Nat) (result : Result) (werr : Option Error) :
    HandlePacket self log (Packet.result sequenceId statusCode result) werr =
      { self := (DispatchResult self log sequenceId statusCode result).self,
        log := (DispatchResult self log sequenceId statusCode result).log,
        ret := some none } := by
  cases hg : self.records.get sequenceId with
  | none => simp [HandlePacket, DispatchResult, hg]
  | some record => simp [HandlePacket, DispatchResult, hg]

theorem HandlePacket_keepalive (self : ConnectImpl) (log : List Effect) (werr : Option Error) :
    HandlePacket self log Packet.keepalive werr =
      match self.connCodec with
      | none => { self := self, log := log, ret := none }
      | some _ => { self := self, log := log ++ [Effect.write Packet.keepalive], ret := some none } := by
  cases hk : self.connCodec <;> simp [HandlePacket, Write, hk]

/-! ## The shape of reachable instances -/

theorem wrapInt32_range (x : Int) :
    -2147483648 ≤ wrapInt32 x ∧ wrapInt32 x ≤ 2147483647 := by
  unfold wrapInt32
  omega

theorem wrapInt32_of_range {x : Int} (h1 : -2147483648 ≤ x) (h2 : x ≤ 2147483647) :
    wrapInt32 x = x := by
  unfold wrapInt32
  omega

theorem WellFormed_NewConnect : WellFormed NewConnect := by
  refine ⟨?_, ?_, ?_⟩ <;> simp [NewConnect]

theorem Disconnect_wellFormed (self : ConnectImpl) (log : List Effect) (h : WellFormed self) :
    WellFormed (Disconnect self log).self := by
  cases hd : (drain self.records.entries log).2 with
  | false => rw [Disconnect_failed self log hd]; exact h
  | true =>
    rw [Disconnect_ok self log hd]
    exact ⟨fun hc => by simp at hc, h.2⟩

theorem Connect_wellFormed (self : ConnectImpl) (log : List Effect) (dial : Except Error Nat)
    (h : WellFormed self) : WellFormed (Connect self log dial).self := by
  cases hd : (drain self.records.entries log).2 with
  | false => rw [Connect_failed self log dial hd]; exact h
  | true =>
    cases dial with
    | error err =>
      rw [Connect_dial_error self log err hd]
      exact ⟨fun hc => by simp at hc, h.2⟩
    | ok c =>
      rw [Connect_dial_ok self log c hd]
      exact ⟨fun _ => by simp, h.2⟩

theorem RequestLater_wellFormed (self : ConnectImpl) (log : List Effect) (request : Request)
    (callback : RequestCallback) (werr : Option Error) (h : WellFormed self) :
    WellFormed (RequestLater self log request callback werr).self := by
  cases hc : Connected self with
  | false => rw [RequestLater_not_connected self log request callback werr hc]; exact h
  | true =>
    have hcs : self.conn.isSome = true := hc
    obtain ⟨hr, hk⟩ := h.1 hcs
    obtain ⟨k, hk⟩ := Option.isSome_iff_exists.1 hk
    obtain ⟨t, hr⟩ := Option.isSome_iff_exists.1 hr
    cases werr with
    | some err =>
      rw [RequestLater_write_error self log request callback err k hc hk]
      exact ⟨fun _ => by simp [hr, hk], wrapInt32_range _⟩
    | none =>
      rw [RequestLater_ok self log request callback k t hc hk hr]
      exact ⟨fun _ => by simp [hk], wrapInt32_range _⟩

theorem DispatchResult_wellFormed (self : ConnectImpl) (log : List Effect) (sequenceId : Int)
    (statusCode : Nat) (result : Result) (h : WellFormed self) :
    WellFormed (DispatchResult self log sequenceId statusCode result).self := by
  cases hg : self.records.get sequenceId with
  | none => rw [DispatchResult_absent self log sequenceId statusCode result hg]; exact h
  | some record =>
    rw [DispatchResult_present self log sequenceId statusCode result record hg]
    refine ⟨fun hc => ?_, h.2⟩
    obtain ⟨hr, hk⟩ := h.1 hc
    obtain ⟨t, hr⟩ := Option.isSome_iff_exists.1 hr
    exact ⟨by simp [hr, Records.delete], hk⟩

theorem HandlePacket_wellFormed (self : ConnectImpl) (log : List Effect) (p : Packet)
    (werr : Option Error) (h : WellFormed self) :
    WellFormed (HandlePacket self log p werr).self := by
  cases p with
  | keepalive =>
    rw [HandlePacket_keepalive]
    cases self.connCodec <;> exact h
  | result sequenceId statusCode result =>
    rw [HandlePacket_result]
    exact DispatchResult_wellFormed self log sequenceId statusCode result h
  | request _ _ => exact h
  | messageEvent _ => exact h
  | redirectEvent _ => exact h
  | serverEvent _ => exact h
  | unknown _ => exact h

theorem step_wellFormed (w : World) (s : Step) (h : WellFormed w.self) :
    WellFormed (step w s).self := by
  cases s with
  | connect dial => exact Connect_wellFormed _ _ _ h
  | disconnect => exact Disconnect_wellFormed _ _ h
  | requestLater request callback werr => exact RequestLater_wellFormed _ _ _ _ _ h
  | dispatchResult sequenceId statusCode result => exact DispatchResult_wellFormed _ _ _ _ _ h
  | handlePacket p werr => exact HandlePacket_wellFormed _ _ _ _ h
  | errorCaught => exact Disconnect_wellFormed _ _ h

theorem run_wellFormed (steps : List Step) :
    ∀ w : World, WellFormed w.self → WellFormed (run w steps).self := by
  induction steps with
  | nil => intro w h; exact h
  | cons s rest ih =>
    intro w h
    unfold run
    split
    · exact h
    · exact ih _ (step_wellFormed w s h)

theorem Reachable.wellFormed {w : World} (h : Reachable w) : WellFormed w.self := by
  obtain ⟨steps, rfl⟩ := h
  exact run_wellFormed steps initial WellFormed_NewConnect

theorem run_append (a b : List Step) : ∀ w : World, run w (a ++ b) = run (run w a) b := by
  induction a with
  | nil => intro w; rfl
  | cons s rest ih =>
    intro w
    cases hf : w.failed with
    | true =>
      have h1 : run w (s :: rest) = w := by simp [run, hf]
      have h2 : ∀ l : List Step, run w l = w := by
        intro l; cases l <;> simp [run, hf]
      rw [h1, h2, h2]
    | false =>
      simp only [List.cons_append, run, hf, Bool.false_eq_true, if_false]
      exact ih _

/-! ## Registration and status codes -/

theorem Records.get_insert_self (t : AList (fun _ : Int => RequestRecord)) (k : Int)
    (v : RequestRecord) : Records.get (some (t.insert k v)) k = some v := by
  simp [Records.get, AList.lookup_insert]

theorem Records.get_insert_ne (t : AList (fun _ : Int => RequestRecord)) {k j : Int}
    (v : RequestRecord) (h : j ≠ k) :
    Records.get (some (t.insert k v)) j = Records.get (some t) j := by
  simp [Records.get, AList.lookup_insert_ne h]

/-- C9 (counterexample): an inbound Result packet that itself carries status code 255 makes
`HandlePacket`, through `DispatchResult`, invoke the pending callback with status code 255,
without any `Disconnect`. -/
theorem HandlePacket_invokes_with_255 :
    (HandlePacket sampleTwo [] (Packet.result 2 255 (Value.obj 9)) none).log =
      [Effect.call 8 255 (Value.obj 9)] ∧
    (DispatchResult sampleTwo [] 2 255 (Value.obj 9)).log = [Effect.call 8 255 (Value.obj 9)] := by
  decide

/-- C9 (amended): every callback invocation made by `DispatchResult`, and by `HandlePacket`
on any packet, carries exactly the status code and result of the inbound Result packet, so
it carries 255 only when the packet does; every invocation made by `Disconnect` carries
`(255, nil)`. -/
theorem callback_status_comes_from_packet (self : ConnectImpl) (log : List Effect) :
    (∀ (sequenceId : Int) (statusCode : Nat) (result : Result), ∃ added : List Effect,
      (DispatchResult self log sequenceId statusCode result).log = log ++ added ∧
      ∀ (f st : Nat) (r : Result), Effect.call f st r ∈ added → st = statusCode ∧ r = result) ∧
    (∀ (p : Packet) (werr : Option Error), ∃ added : List Effect,
      (HandlePacket self log p werr).log = log ++ added ∧
      ∀ (f st : Nat) (r : Result), Effect.call f st r ∈ added →
        ∃ sequenceId : Int, p = Packet.result sequenceId st r) ∧
    (∃ added : List Effect,
      (Disconnect self log).log = log ++ added ∧
      ∀ (f st : Nat) (r : Result), Effect.call f st r ∈ added → st = 255 ∧ r = Value.nil) := by
  have hdisp : ∀ (sequenceId : Int) (statusCode : Nat) (result : Result),
      ∃ added : List Effect,
        (DispatchResult self log sequenceId statusCode result).log = log ++ added ∧
        ∀ (f st : Nat) (r : Result), Effect.call f st r ∈ added →
          st = statusCode ∧ r = result := by
    intro sequenceId statusCode result
    cases hg : self.records.get sequenceId with
    | none =>
      rw [DispatchResult_absent self log sequenceId statusCode result hg]
      exact ⟨[], by simp, by simp⟩
    | some record =>
      rw [DispatchResult_present self log sequenceId statusCode result record hg]
      refine ⟨_, rfl, ?_⟩
      intro f st r hmem
      cases hcb : record.callback with
      | none => simp [hcb] at hmem
      | some g =>
        simp only [hcb, List.mem_singleton, Effect.call.injEq] at hmem
        exact ⟨hmem.2.1, hmem.2.2⟩
  refine ⟨hdisp, ?_, ?_⟩
  · intro p werr
    cases p with
    | keepalive =>
      rw [HandlePacket_keepalive]
      cases self.connCodec with
      | none => exact ⟨[], by simp, by simp⟩
      | some c => exact ⟨[Effect.write Packet.keepalive], rfl, by simp⟩
    | result sequenceId statusCode result =>
      rw [HandlePacket_result]
      obtain ⟨added, h1, h2⟩ := hdisp sequenceId statusCode result
      refine ⟨added, h1, ?_⟩
      intro f st r hmem
      obtain ⟨rfl, rfl⟩ := h2 f st r hmem
      exact ⟨sequenceId, rfl⟩
    | request _ _ => exact ⟨[], by simp [HandlePacket], by simp⟩
    | messageEvent payload => exact ⟨[Effect.event "message" payload], rfl, by simp⟩
    | redirectEvent payload => exact ⟨[Effect.event "redirect" payload], rfl, by simp⟩
    | serverEvent payload => exact ⟨[Effect.event "server" payload], rfl, by simp⟩
    | unknown _ => exact ⟨[], by simp [HandlePacket], by simp⟩
  · obtain ⟨fs, hfs⟩ := drain_grows self.records.entries log
    have hcalls : ∀ (f st : Nat) (r : Result),
        Effect.call f st r ∈ fs.map (fun f => Effect.call f 255 Value.nil) →
          st = 255 ∧ r = Value.nil := by
      intro f st r hmem
      obtain ⟨g, _, hg⟩ := List.mem_map.1 hmem
      simp only [Effect.call.injEq] at hg
      exact ⟨hg.2.1.symm, hg.2.2.symm⟩
    cases hd : (drain self.records.entries log).2 with
    | false =>
      rw [Disconnect_failed self log hd, hfs]
      exact ⟨_, rfl, hcalls⟩
    | true =>
      rw [Disconnect_ok self log hd, hfs]
      refine ⟨_, List.append_assoc _ _ _, ?_⟩
      intro f st r hmem
      rcases List.mem_append.1 hmem with h | h
      · exact hcalls f st r h
      · cases hcn : self.conn <;> simp [hcn] at h

/-! ## Request -/

theorem Request_result_is_request (self : ConnectImpl) (log : List Effect) (request : Request)
    (f : Nat) (werr : Option Error) (statusCode : Nat) (result : Result)
    (h : (RequestLater self log request (some f) werr).ret = some none) :
    (ConnectImpl.Request self log request f werr (some (statusCode, result))).ret =
      some (RequestOutcome.returned statusCode request none) := by
  unfold ConnectImpl.Request
  rcases hout : RequestLater self log request (some f) werr with ⟨s1, log1, ret⟩
  rw [hout] at h
  simp only at h
  subst h
  rfl

/-- C8 (the code at the failing input): `Request(obj 1)` on a connected instance, with its
callback invoked with `(0, obj 2)`, returns `(0, obj 1, nil)`: the closure sends `request`,
not `result`, on the result channel.  When `RequestLater` fails, `Request` returns that
error at once, whatever happens later. -/
theorem Request_returns_the_request :
    (ConnectImpl.Request sampleTwo [] (Value.obj 1) 9 none (some (0, Value.obj 2))).ret =
      some (RequestOutcome.returned 0 (Value.obj 1) none) ∧
    (ConnectImpl.Request sampleTwo [] (Value.obj 1) 9 none (some (0, Value.obj 2))).ret ≠
      some (RequestOutcome.returned 0 (Value.obj 2) none) ∧
    (ConnectImpl.Request NewConnect [] (Value.obj 1) 9 none (some (0, Value.obj 2))).ret =
      some (RequestOutcome.returned 0 Value.nil (some "Not connected")) ∧
    (ConnectImpl.Request NewConnect [] (Value.obj 1) 9 none none).ret =
      some (RequestOutcome.returned 0 Value.nil (some "Not connected")) := by
  decide

/-! ## Sequence ids -/

theorem wrapInt32_wrapInt32_add (x y : Int) : wrapInt32 (wrapInt32 x + y) = wrapInt32 (x + y) := by
  unfold wrapInt32
  omega

theorem Disconnect_sequenceId (self : ConnectImpl) (log : List Effect) :
    (Disconnect self log).self.sequenceId = self.sequenceId := by
  cases hd : (drain self.records.entries log).2 with
  | false => rw [Disconnect_failed self log hd]
  | true => rw [Disconnect_ok self log hd]

theorem Connect_sequenceId (self : ConnectImpl) (log : List Effect) (dial : Except Error Nat) :
    (Connect self log dial).self.sequenceId = self.sequenceId := by
  cases hd : (drain self.records.entries log).2 with
  | false => rw [Connect_failed self log dial hd]
  | true =>
    cases dial with
    | error err => rw [Connect_dial_error self log err hd]
    | ok c => rw [Connect_dial_ok self log c hd]

theorem DispatchResult_sequenceId (self : ConnectImpl) (log : List Effect) (sequenceId : Int)
    (statusCode : Nat) (result : Result) :
    (DispatchResult self log sequenceId statusCode result).self.sequenceId = self.sequenceId := by
  cases hg : self.records.get sequenceId with
  | none => rw [DispatchResult_absent self log sequenceId statusCode result hg]
  | some record => rw [DispatchResult_present self log sequenceId statusCode result record hg]

theorem HandlePacket_sequenceId (self : ConnectImpl) (log : List Effect) (p : Packet)
    (werr : Option Error) : (HandlePacket self log p werr).self.sequenceId = self.sequenceId := by
  cases p with
  | keepalive =>
    rw [HandlePacket_keepalive]
    cases self.connCodec <;> rfl
  | result sequenceId statusCode result =>
    rw [HandlePacket_result]
    exact DispatchResult_sequenceId self log sequenceId statusCode result
  | request _ _ => rfl
  | messageEvent _ => rfl
  | redirectEvent _ => rfl
  | serverEvent _ => rfl
  | unknown _ => rfl

theorem RequestLater_sequenceId (self : ConnectImpl) (log : List Effect) (request : Request)
    (callback : RequestCallback) (werr : Option Error) :
    (RequestLater self log request callback werr).self.sequenceId =
      if Connected self then wrapInt32 (self.sequenceId + 1) else self.sequenceId := by
  cases hc : Connected self with
  | false => rw [RequestLater_not_connected self log request callback werr hc]; simp
  | true =>
    cases hk : self.connCodec with
    | none => rw [RequestLater_no_codec self log request callback werr hc hk]; simp
    | some k =>
      cases werr with
      | some err => rw [RequestLater_write_error self log request callback err k hc hk]; simp
      | none =>
        cases hr : self.records with
        | none => rw [RequestLater_nil_table self log request callback k hc hk hr]; simp
        | some t => rw [RequestLater_ok self log request callback k t hc hk hr]; simp

theorem step_sequenceId (w : World) (s : Step) :
    (step w s).self.sequenceId =
      if isRequestLater s && Connected w.self then wrapInt32 (w.self.sequenceId + 1)
      else w.self.sequenceId := by
  cases s with
  | connect dial => simpa [step, Out.world, isRequestLater] using Connect_sequenceId _ _ _
  | disconnect => simpa [step, Out.world, isRequestLater] using Disconnect_sequenceId _ _
  | requestLater request callback werr =>
    simpa [step, Out.world, isRequestLater] using RequestLater_sequenceId _ _ _ _ _
  | dispatchResult sequenceId statusCode result =>
    simpa [step, Out.world, isRequestLater] using DispatchResult_sequenceId _ _ _ _ _
  | handlePacket p werr =>
    simpa [step, Out.world, isRequestLater] using HandlePacket_sequenceId _ _ _ _
  | errorCaught =>
    simpa [step, Out.world, isRequestLater, ErrorCaught] using Disconnect_sequenceId _ _

theorem fired_append_write (f : Nat) (log : List Effect) (p : Packet) :
    fired f (log ++ [Effect.write p]) = fired f log := by
  simp [fired, isCallOf, List.countP_append]

theorem step_requestLater_ok (w : World) (request : Request) (callback : RequestCallback)
    (hc : Connected w.self = true) (hwf : WellFormed w.self) :
    ∃ t : AList (fun _ : Int => RequestRecord), w.self.records = some t ∧
      step w (Step.requestLater request callback none) =
        { self := { w.self with
            sequenceId := wrapInt32 (w.self.sequenceId + 1),
            records := some (t.insert (wrapInt32 (w.self.sequenceId + 1))
              { request := request, callback := callback }) },
          log := w.log ++
            [Effect.write (Packet.request (wrapInt32 (w.self.sequenceId + 1)) request)],
          failed := false } := by
  obtain ⟨hr, hk⟩ := hwf.1 hc
  obtain ⟨k, hk⟩ := Option.isSome_iff_exists.1 hk
  obtain ⟨t, hr⟩ := Option.isSome_iff_exists.1 hr
  refine ⟨t, hr, ?_⟩
  simp only [step]
  rw [RequestLater_ok w.self w.log request callback k t hc hk hr]
  rfl

theorem mem_insert_entries {t : AList (fun _ : Int => RequestRecord)} {k : Int}
    {v : RequestRecord} {e : Sigma (fun _ : Int => RequestRecord)}
    (h : e ∈ (t.insert k v).entries) : e = ⟨k, v⟩ ∨ (e ∈ t.entries ∧ e.1 ≠ k) := by
  rw [AList.insert_entries] at h
  rcases List.mem_cons.1 h with h | h
  · exact Or.inl h
  · refine Or.inr ⟨(List.kerase_sublist k t.entries).subset h, ?_⟩
    intro hk
    have hmem : e.1 ∈ (List.kerase k t.entries).keys := List.mem_keys_of_mem h
    rw [hk] at hmem
    exact List.not_mem_keys_kerase k t.nodupKeys hmem

theorem run_replicate_requestLater (request : Request) (g : Nat) (k0 : Int) (n : Nat) :
    ∀ w : World, w.failed = false → Connected w.self = true → WellFormed w.self →
      (∀ e ∈ w.self.records.entries, e.2.callback = some g ∨ e.1 = k0) →
      (run w (List.replicate n (Step.requestLater request (some g) none))).failed = false ∧
      Connected (run w (List.replicate n (Step.requestLater request (some g) none))).self = true ∧
      (∀ e ∈ (run w (List.replicate n (Step.requestLater request (some g) none))).self.records.entries,
        e.2.callback = some g ∨ e.1 = k0) ∧
      (run w (List.replicate n (Step.requestLater request (some g) none))).self.sequenceId =
        wrapInt32 (w.self.sequenceId + n) ∧
      (∀ f : Nat,
        fired f (run w (List.replicate n (Step.requestLater request (some g) none))).log =
          fired f w.log) := by
  induction n with
  | zero =>
    intro w hf hc hwf hent
    refine ⟨hf, hc, hent, ?_, fun _ => rfl⟩
    simp only [List.replicate, run, Nat.cast_zero, add_zero]
    exact (wrapInt32_of_range hwf.2.1 hwf.2.2).symm
  | succ n ih =>
    intro w hf hc hwf hent
    obtain ⟨t, hr, hstep⟩ := step_requestLater_ok w request (some g) hc hwf
    have hwf1 := step_wellFormed w (Step.requestLater request (some g) none) hwf
    have hrun : run w (List.replicate (n + 1) (Step.requestLater request (some g) none)) =
        run (step w (Step.requestLater request (some g) none))
          (List.replicate n (Step.requestLater request (some g) none)) := by
      rw [List.replicate_succ]
      simp only [run, hf, Bool.false_eq_true, if_false]
    rw [hrun]
    have hent1 : ∀ e ∈ (step w (Step.requestLater request (some g) none)).self.records.entries,
        e.2.callback = some g ∨ e.1 = k0 := by
      intro e he
      rw [hstep] at he
      rcases mem_insert_entries he with h | h
      · left; rw [h]
      · exact hent e (by rw [hr]; exact h.1)
    obtain ⟨h1, h2, h3, h4, h5⟩ := ih (step w (Step.requestLater request (some g) none))
      (by rw [hstep]) (by rw [hstep]; exact hc) hwf1 hent1
    refine ⟨h1, h2, h3, ?_, ?_⟩
    · rw [h4, hstep]
      simp only
      rw [wrapInt32_wrapInt32_add]
      push_cast
      congr 1
      ring
    · intro f
      rw [h5 f, hstep]
      exact fired_append_write f _ _

theorem run_cons (w : World) (s : Step) (rest : List Step) (hf : w.failed = false) :
    run w (s :: rest) = run (step w s) rest := by
  simp only [run, hf, Bool.false_eq_true, if_false]

theorem fired_append (f : Nat) (a b : List Effect) : fired f (a ++ b) = fired f a + fired f b := by
  simp [fired, List.countP_append]

theorem fired_call (f g st : Nat) (r : Result) :
    fired f [Effect.call g st r] = if g = f then 1 else 0 := by
  by_cases h : g = f <;> simp [fired, isCallOf, h]

theorem drain_fired (f : Nat) (es : List (Sigma (fun _ : Int => RequestRecord))) :
    ∀ log : List Effect,
      fired f log ≤ fired f (drain es log).1 ∧
      fired f (drain es log).1 ≤ fired f log + es.countP (fun e => e.2.callback == some f) ∧
      ((drain es log).2 = true →
        fired f (drain es log).1 = fired f log + es.countP (fun e => e.2.callback == some f)) := by
  induction es with
  | nil => intro log; simp [drain]
  | cons e rest ih =>
    intro log
    cases hc : e.2.callback with
    | none => simp [drain, hc]
    | some g =>
      obtain ⟨h1, h2, h3⟩ := ih (log ++ [Effect.call g 255 Value.nil])
      rw [fired_append, fired_call] at h1 h2 h3
      simp only [drain, hc, List.countP_cons, beq_iff_eq, Option.some.injEq]
      refine ⟨by omega, by omega, fun h => ?_⟩
      have := h3 h
      omega

theorem pending_none (f : Nat) : pending f none = 0 := rfl

theorem pending_empty (f : Nat) : pending f (some ∅) = 0 := rfl

theorem countP_kerase_le (p : Sigma (fun _ : Int => RequestRecord) → Bool) (k : Int)
    (l : List (Sigma (fun _ : Int => RequestRecord))) :
    (List.kerase k l).countP p ≤ l.countP p :=
  (List.kerase_sublist k l).countP_le p

theorem countP_kerase_of_dlookup (p : Sigma (fun _ : Int => RequestRecord) → Bool) (k : Int)
    (r : RequestRecord) :
    ∀ l : List (Sigma (fun _ : Int => RequestRecord)), List.dlookup k l = some r →
      (List.kerase k l).countP p + (if p ⟨k, r⟩ then 1 else 0) = l.countP p := by
  intro l
  induction l with
  | nil => intro h; simp at h
  | cons e rest ih =>
    intro h
    by_cases hk : k = e.1
    · obtain ⟨k', v⟩ := e
      simp only at hk
      subst hk
      rw [List.dlookup_cons_eq] at h
      simp only [Option.some.injEq] at h
      subst h
      have hke : List.kerase k (⟨k, v⟩ :: rest) = rest := List.kerase_cons_eq rfl
      rw [hke, List.countP_cons]
    · rw [List.dlookup_cons_ne _ _ hk] at h
      rw [List.kerase_cons_ne hk, List.countP_cons, List.countP_cons, ← ih h]
      omega

theorem pending_delete_le (f : Nat) (m : Records) (k : Int) :
    pending f (m.delete k) ≤ pending f m := by
  cases m with
  | none => exact Nat.le_refl _
  | some t => exact countP_kerase_le _ k t.entries

theorem pending_delete (f : Nat) (m : Records) (k : Int) (r : RequestRecord)
    (h : m.get k = some r) :
    pending f (m.delete k) + (if r.callback = some f then 1 else 0) = pending f m := by
  cases m with
  | none => simp [Records.get] at h
  | some t =>
    have := countP_kerase_of_dlookup (fun e => e.2.callback == some f) k r t.entries h
    simpa [pending, Records.delete, Records.entries, AList.erase] using this

theorem pending_insert (f : Nat) (t : AList (fun _ : Int => RequestRecord)) (k : Int)
    (v : RequestRecord) :
    pending f (some (t.insert k v)) =
      (if v.callback = some f then 1 else 0) + pending f (Records.delete (some t) k) := by
  simp only [pending, Records.entries, Records.delete, AList.insert_entries, List.countP_cons,
    AList.erase, beq_iff_eq]
  omega

theorem pending_delete_absent (f : Nat) (m : Records) (k : Int) (h : m.get k = none) :
    pending f (m.delete k) = pending f m := by
  cases m with
  | none => rfl
  | some t =>
    have hk : k ∉ t.entries.keys := by
      have := AList.lookup_eq_none.1 h
      exact this
    simp [pending, Records.delete, Records.entries, AList.erase, List.kerase_of_not_mem_keys hk]

theorem Disconnect_count (f : Nat) (self : ConnectImpl) (log : List Effect) :
    fired f log ≤ fired f (Disconnect self log).log ∧
    fired f (Disconnect self log).log ≤ fired f log + pending f self.records ∧
    ((Disconnect self log).ret = some () →
      fired f (Disconnect self log).log = fired f log + pending f self.records ∧
      pending f (Disconnect self log).self.records = 0) := by
  obtain ⟨h1, h2, h3⟩ := drain_fired f self.records.entries log
  cases hd : (drain self.records.entries log).2 with
  | false =>
    rw [Disconnect_failed self log hd]
    exact ⟨h1, h2, fun h => by simp at h⟩
  | true =>
    have h3' := h3 hd
    have hlog : fired f (Disconnect self log).log = fired f (drain self.records.entries log).1 := by
      rw [Disconnect_ok self log hd]
      cases hcn : self.conn <;> simp [fired_append, fired, isCallOf]
    rw [hlog]
    rw [Disconnect_ok self log hd]
    exact ⟨h1, h2, fun _ => ⟨h3', rfl⟩⟩

theorem Connect_count (f : Nat) (self : ConnectImpl) (log : List Effect)
    (dial : Except Error Nat) :
    fired f log ≤ fired f (Connect self log dial).log ∧
    fired f (Connect self log dial).log ≤ fired f log + pending f self.records ∧
    ((Connect self log dial).ret.isNone = false →
      fired f (Connect self log dial).log = fired f log + pending f self.records ∧
      pending f (Connect self log dial).self.records = 0) := by
  obtain ⟨h1, h2, h3⟩ := Disconnect_count f self log
  cases hd : (drain self.records.entries log).2 with
  | false =>
    rw [Connect_failed self log dial hd]
    rw [Disconnect_failed self log hd] at h1 h2
    exact ⟨h1, h2, fun h => by simp at h⟩
  | true =>
    have h3' := h3 ((Disconnect_ret self log).2 hd)
    cases dial with
    | error err =>
      rw [Connect_dial_error self log err hd]
      exact ⟨h1, h2, fun _ => ⟨h3'.1, rfl⟩⟩
    | ok c =>
      rw [Connect_dial_ok self log c hd]
      have hz : fired f [Effect.readConn c] = 0 := rfl
      refine ⟨?_, ?_, fun _ => ⟨?_, rfl⟩⟩
      · simpa [fired_append, hz] using h1
      · simpa [fired_append, hz] using h2
      · simpa [fired_append, hz] using h3'.1

theorem DispatchResult_count (f : Nat) (self : ConnectImpl) (log : List Effect)
    (sequenceId : Int) (statusCode : Nat) (result : Result) :
    fired f log ≤ fired f (DispatchResult self log sequenceId statusCode result).log ∧
    fired f (DispatchResult self log sequenceId statusCode result).log +
        pending f (DispatchResult self log sequenceId statusCode result).self.records =
      fired f log + pending f self.records ∧
    (DispatchResult self log sequenceId statusCode result).ret = some () := by
  cases hg : self.records.get sequenceId with
  | none =>
    rw [DispatchResult_absent self log sequenceId statusCode result hg]
    exact ⟨Nat.le_refl _, rfl, rfl⟩
  | some record =>
    rw [DispatchResult_present self log sequenceId statusCode result record hg]
    have hp := pending_delete f self.records sequenceId record hg
    cases hcb : record.callback with
    | none =>
      rw [hcb] at hp
      simp only [reduceCtorEq, if_false, add_zero] at hp
      refine ⟨?_, ?_, rfl⟩
      · simp [hcb]
      · simp only [hcb, List.append_nil]
        omega
    | some g =>
      rw [hcb] at hp
      simp only [Option.some.injEq] at hp
      have hfc := fired_call f g statusCode result
      refine ⟨?_, ?_, rfl⟩
      · simp only [hcb, fired_append]
        omega
      · simp only [hcb, fired_append]
        omega

theorem RequestLater_count (f : Nat) (self : ConnectImpl) (log : List Effect)
    (request : Request) (callback : RequestCallback) (werr : Option Error)
    (hcb : callback ≠ some f) :
    fired f (RequestLater self log request callback werr).log = fired f log ∧
    pending f (RequestLater self log request callback werr).self.records ≤
      pending f self.records ∧
    (self.records.get (wrapInt32 (self.sequenceId + 1)) = none →
      pending f (RequestLater self log request callback werr).self.records =
        pending f self.records) := by
  cases hc : Connected self with
  | false =>
    rw [RequestLater_not_connected self log request callback werr hc]
    exact ⟨rfl, Nat.le_refl _, fun _ => rfl⟩
  | true =>
    cases hk : self.connCodec with
    | none =>
      rw [RequestLater_no_codec self log request callback werr hc hk]
      exact ⟨rfl, Nat.le_refl _, fun _ => rfl⟩
    | some k =>
      cases werr with
      | some err =>
        rw [RequestLater_write_error self log request callback err k hc hk]
        exact ⟨fired_append_write f _ _, Nat.le_refl _, fun _ => rfl⟩
      | none =>
        cases hr : self.records with
        | none =>
          rw [RequestLater_nil_table self log request callback k hc hk hr]
          exact ⟨fired_append_write f _ _, by simp [hr], fun _ => by simp [hr]⟩
        | some t =>
          rw [RequestLater_ok self log request callback k t hc hk hr]
          have hins := pending_insert f t (wrapInt32 (self.sequenceId + 1))
            { request := request, callback := callback }
          rw [if_neg hcb, Nat.zero_add] at hins
          refine ⟨fired_append_write f _ _, ?_, fun h => ?_⟩
          · exact hins ▸ pending_delete_le f _ _
          · exact hins.trans (pending_delete_absent f _ _ h)

theorem HandlePacket_count (f : Nat) (self : ConnectImpl) (log : List Effect) (p : Packet)
    (werr : Option Error) :
    fired f log ≤ fired f (HandlePacket self log p werr).log ∧
    fired f (HandlePacket self log p werr).log +
        pending f (HandlePacket self log p werr).self.records =
      fired f log + pending f self.records := by
  cases p with
  | keepalive =>
    rw [HandlePacket_keepalive]
    cases self.connCodec with
    | none => exact ⟨Nat.le_refl _, rfl⟩
    | some c => exact ⟨by simp [fired_append_write], by simp [fired_append_write]⟩
  | result sequenceId statusCode result =>
    rw [HandlePacket_result]
    obtain ⟨h1, h2, -⟩ := DispatchResult_count f self log sequenceId statusCode result
    exact ⟨h1, h2⟩
  | request _ _ => exact ⟨Nat.le_refl _, rfl⟩
  | messageEvent payload =>
    have hz : fired f [Effect.event "message" payload] = 0 := rfl
    exact ⟨by simp [HandlePacket, fired_append, hz], by simp [HandlePacket, fired_append, hz]⟩
  | redirectEvent payload =>
    have hz : fired f [Effect.event "redirect" payload] = 0 := rfl
    exact ⟨by simp [HandlePacket, fired_append, hz], by simp [HandlePacket, fired_append, hz]⟩
  | serverEvent payload =>
    have hz : fired f [Effect.event "server" payload] = 0 := rfl
    exact ⟨by simp [HandlePacket, fired_append, hz], by simp [HandlePacket, fired_append, hz]⟩
  | unknown _ => exact ⟨Nat.le_refl _, rfl⟩

/-! ## One step of a run -/

theorem step_count (f : Nat) (w : World) (s : Step) (hs : registers f s = false) :
    fired f w.log ≤ fired f (step w s).log ∧
    fired f (step w s).log ≤ fired f w.log + pending f w.self.records ∧
    ((step w s).failed = false →
      fired f (step w s).log + pending f (step w s).self.records ≤
        fired f w.log + pending f w.self.records) ∧
    ((step w s).failed = false →
      (isRequestLater s = true →
        w.self.records.get (wrapInt32 (w.self.sequenceId + 1)) = none) →
      fired f (step w s).log + pending f (step w s).self.records =
        fired f w.log + pending f w.self.records) := by
  cases s with
  | connect dial =>
    obtain ⟨h1, h2, h3⟩ := Connect_count f w.self w.log dial
    have e1 : (step w (Step.connect dial)).log = (Connect w.self w.log dial).log := rfl
    have e2 : (step w (Step.connect dial)).self = (Connect w.self w.log dial).self := rfl
    have e3 : (step w (Step.connect dial)).failed = (Connect w.self w.log dial).ret.isNone := rfl
    rw [e1, e2, e3]
    refine ⟨h1, h2, fun hf => ?_, fun hf _ => ?_⟩
    · obtain ⟨h4, h5⟩ := h3 hf
      omega
    · obtain ⟨h4, h5⟩ := h3 hf
      omega
  | disconnect =>
    obtain ⟨h1, h2, h3⟩ := Disconnect_count f w.self w.log
    have e1 : (step w Step.disconnect).log = (Disconnect w.self w.log).log := rfl
    have e2 : (step w Step.disconnect).self = (Disconnect w.self w.log).self := rfl
    have e3 : (step w Step.disconnect).failed = (Disconnect w.self w.log).ret.isNone := rfl
    have hret : (Disconnect w.self w.log).ret.isNone = false →
        (Disconnect w.self w.log).ret = some () := by
      intro hf
      cases hr : (Disconnect w.self w.log).ret with
      | none => simp [hr] at hf
      | some u => rfl
    rw [e1, e2, e3]
    refine ⟨h1, h2, fun hf => ?_, fun hf _ => ?_⟩
    · obtain ⟨h4, h5⟩ := h3 (hret hf)
      omega
    · obtain ⟨h4, h5⟩ := h3 (hret hf)
      omega
  | errorCaught =>
    obtain ⟨h1, h2, h3⟩ := Disconnect_count f w.self w.log
    have e1 : (step w Step.errorCaught).log = (Disconnect w.self w.log).log := rfl
    have e2 : (step w Step.errorCaught).self = (Disconnect w.self w.log).self := rfl
    have e3 : (step w Step.errorCaught).failed = (Disconnect w.self w.log).ret.isNone := rfl
    have hret : (Disconnect w.self w.log).ret.isNone = false →
        (Disconnect w.self w.log).ret = some () := by
      intro hf
      cases hr : (Disconnect w.self w.log).ret with
      | none => simp [hr] at hf
      | some u => rfl
    rw [e1, e2, e3]
    refine ⟨h1, h2, fun hf => ?_, fun hf _ => ?_⟩
    · obtain ⟨h4, h5⟩ := h3 (hret hf)
      omega
    · obtain ⟨h4, h5⟩ := h3 (hret hf)
      omega
  | requestLater request callback werr =>
    have hcb : callback ≠ some f := by
      intro h
      simp [registers, h] at hs
    obtain ⟨h1, h2, h3⟩ := RequestLater_count f w.self w.log request callback werr hcb
    have e1 : (step w (Step.requestLater request callback werr)).log =
        (RequestLater w.self w.log request callback werr).log := rfl
    have e2 : (step w (Step.requestLater request callback werr)).self =
        (RequestLater w.self w.log request callback werr).self := rfl
    rw [e1, e2, h1]
    refine ⟨Nat.le_refl _, Nat.le_add_right _ _, fun _ => by omega, fun _ h => ?_⟩
    rw [h3 (h rfl)]
  | dispatchResult sequenceId statusCode result =>
    obtain ⟨h1, h2, -⟩ := DispatchResult_count f w.self w.log sequenceId statusCode result
    have e1 : (step w (Step.dispatchResult sequenceId statusCode result)).log =
        (DispatchResult w.self w.log sequenceId statusCode result).log := rfl
    have e2 : (step w (Step.dispatchResult sequenceId statusCode result)).self =
        (DispatchResult w.self w.log sequenceId statusCode result).self := rfl
    rw [e1, e2]
    exact ⟨h1, by omega, fun _ => by omega, fun _ _ => h2⟩
  | handlePacket p werr =>
    obtain ⟨h1, h2⟩ := HandlePacket_count f w.self w.log p werr
    have e1 : (step w (Step.handlePacket p werr)).log =
        (HandlePacket w.self w.log p werr).log := rfl
    have e2 : (step w (Step.handlePacket p werr)).self =
        (HandlePacket w.self w.log p werr).self := rfl
    rw [e1, e2]
    exact ⟨h1, by omega, fun _ => by omega, fun _ _ => h2⟩

theorem Records.mem_delete {m : Records} {k : Int} {e : Sigma (fun _ : Int => RequestRecord)}
    (h : e ∈ (m.delete k).entries) : e ∈ m.entries := by
  cases m with
  | none => exact h
  | some t => exact (List.kerase_sublist k t.entries).subset h

theorem Disconnect_entries (self : ConnectImpl) (log : List Effect) :
    ∀ e ∈ (Disconnect self log).self.records.entries, e ∈ self.records.entries := by
  cases hd : (drain self.records.entries log).2 with
  | false => rw [Disconnect_failed self log hd]; exact fun e he => he
  | true => rw [Disconnect_ok self log hd]; exact fun e he => by simp [Records.entries] at he

theorem Connect_entries (self : ConnectImpl) (log : List Effect) (dial : Except Error Nat) :
    ∀ e ∈ (Connect self log dial).self.records.entries, e ∈ self.records.entries := by
  cases hd : (drain self.records.entries log).2 with
  | false => rw [Connect_failed self log dial hd]; exact fun e he => he
  | true =>
    cases dial with
    | error err =>
      rw [Connect_dial_error self log err hd]
      exact fun e he => by simp [Records.entries] at he
    | ok c =>
      rw [Connect_dial_ok self log c hd]
      exact fun e he => by simp [Records.entries] at he

theorem DispatchResult_entries (self : ConnectImpl) (log : List Effect) (sequenceId : Int)
    (statusCode : Nat) (result : Result) :
    ∀ e ∈ (DispatchResult self log sequenceId statusCode result).self.records.entries,
      e ∈ self.records.entries := by
  cases hg : self.records.get sequenceId with
  | none =>
    rw [DispatchResult_absent self log sequenceId statusCode result hg]
    exact fun e he => he
  | some record =>
    rw [DispatchResult_present self log sequenceId statusCode result record hg]
    exact fun e he => Records.mem_delete he

theorem HandlePacket_entries (self : ConnectImpl) (log : List Effect) (p : Packet)
    (werr : Option Error) :
    ∀ e ∈ (HandlePacket self log p werr).self.records.entries, e ∈ self.records.entries := by
  cases p with
  | keepalive =>
    rw [HandlePacket_keepalive]
    cases self.connCodec <;> exact fun e he => he
  | result sequenceId statusCode result =>
    rw [HandlePacket_result]
    exact DispatchResult_entries self log sequenceId statusCode result
  | request _ _ => exact fun e he => he
  | messageEvent _ => exact fun e he => he
  | redirectEvent _ => exact fun e he => he
  | serverEvent _ => exact fun e he => he
  | unknown _ => exact fun e he => he

theorem RequestLater_entries (self : ConnectImpl) (log : List Effect) (request : Request)
    (callback : RequestCallback) (werr : Option Error) :
    ∀ e ∈ (RequestLater self log request callback werr).self.records.entries,
      e ∈ self.records.entries ∨
        (Connected self = true ∧ e.1 = wrapInt32 (self.sequenceId + 1)) := by
  cases hc : Connected self with
  | false =>
    rw [RequestLater_not_connected self log request callback werr hc]
    exact fun e he => Or.inl he
  | true =>
    cases hk : self.connCodec with
    | none =>
      rw [RequestLater_no_codec self log request callback werr hc hk]
      exact fun e he => Or.inl he
    | some k =>
      cases werr with
      | some err =>
        rw [RequestLater_write_error self log request callback err k hc hk]
        exact fun e he => Or.inl he
      | none =>
        cases hr : self.records with
        | none =>
          rw [RequestLater_nil_table self log request callback k hc hk hr]
          intro e he
          simp [hr, Records.entries] at he
        | some t =>
          rw [RequestLater_ok self log request callback k t hc hk hr]
          intro e he
          rcases mem_insert_entries he with h | h
          · right; exact ⟨rfl, by rw [h]⟩
          · left; exact h.1

theorem wrapInt32_shift (s : Int) (j : Nat) :
    wrapInt32 (s - j) = wrapInt32 (wrapInt32 (s + 1) - ((j + 1 : Nat) : Int)) := by
  unfold wrapInt32
  push_cast
  omega

theorem wrapInt32_idem (x : Int) : wrapInt32 x = wrapInt32 (wrapInt32 x - ((0 : Nat) : Int)) := by
  unfold wrapInt32
  push_cast
  omega

theorem step_keysWithin (n : Nat) (w : World) (s : Step) (h : KeysWithin n w.self) :
    KeysWithin (n + (if isRequestLater s = true then 1 else 0)) (step w s).self := by
  have hseq := step_sequenceId w s
  cases s with
  | requestLater request callback werr =>
    intro e he
    simp only [isRequestLater, if_true]
    simp only [isRequestLater, Bool.true_and] at hseq
    rcases RequestLater_entries w.self w.log request callback werr e he with hold | ⟨hc, hnew⟩
    · obtain ⟨j, hj, hej⟩ := h e hold
      cases hc : Connected w.self with
      | true =>
        rw [hc, if_pos rfl] at hseq
        exact ⟨j + 1, by omega, by rw [hseq, hej]; exact wrapInt32_shift _ j⟩
      | false =>
        rw [hc] at hseq
        simp only [Bool.false_eq_true, if_false] at hseq
        exact ⟨j, by omega, by rw [hseq, hej]⟩
    · rw [hc, if_pos rfl] at hseq
      exact ⟨0, by omega, by rw [hseq, hnew]; exact wrapInt32_idem _⟩
  | connect dial =>
    intro e he
    simp only [isRequestLater, Bool.false_and, Bool.false_eq_true, if_false] at hseq ⊢
    obtain ⟨j, hj, hej⟩ := h e (Connect_entries w.self w.log dial e he)
    exact ⟨j, by omega, by rw [hseq, hej]⟩
  | disconnect =>
    intro e he
    simp only [isRequestLater, Bool.false_and, Bool.false_eq_true, if_false] at hseq ⊢
    obtain ⟨j, hj, hej⟩ := h e (Disconnect_entries w.self w.log e he)
    exact ⟨j, by omega, by rw [hseq, hej]⟩
  | errorCaught =>
    intro e he
    simp only [isRequestLater, Bool.false_and, Bool.false_eq_true, if_false] at hseq ⊢
    obtain ⟨j, hj, hej⟩ := h e (Disconnect_entries w.self w.log e he)
    exact ⟨j, by omega, by rw [hseq, hej]⟩
  | dispatchResult sequenceId statusCode result =>
    intro e he
    simp only [isRequestLater, Bool.false_and, Bool.false_eq_true, if_false] at hseq ⊢
    obtain ⟨j, hj, hej⟩ := h e (DispatchResult_entries w.self w.log sequenceId statusCode result e he)
    exact ⟨j, by omega, by rw [hseq, hej]⟩
  | handlePacket p werr =>
    intro e he
    simp only [isRequestLater, Bool.false_and, Bool.false_eq_true, if_false] at hseq ⊢
    obtain ⟨j, hj, hej⟩ := h e (HandlePacket_entries w.self w.log p werr e he)
    exact ⟨j, by omega, by rw [hseq, hej]⟩

theorem KeysWithin.next_absent {n : Nat} {self : ConnectImpl} (h : KeysWithin n self)
    (hn : n < 4294967296) : self.records.get (wrapInt32 (self.sequenceId + 1)) = none := by
  rw [Records.get_none_iff]
  intro e he heq
  obtain ⟨j, hj, hej⟩ := h e he
  rw [hej] at heq
  unfold wrapInt32 at heq
  omega

/-! ## Whole runs -/

theorem run_of_failed (w : World) (steps : List Step) (h : w.failed = true) : run w steps = w := by
  cases steps <;> simp [run, h]

theorem run_count_eq (f : Nat) (steps : List Step) :
    ∀ (w : World) (n : Nat), (∀ s ∈ steps, registers f s = false) → KeysWithin n w.self →
      n + steps.countP isRequestLater < 4294967296 → (run w steps).failed = false →
      fired f (run w steps).log + pending f (run w steps).self.records =
          fired f w.log + pending f w.self.records ∧
        KeysWithin (n + steps.countP isRequestLater) (run w steps).self := by
  induction steps with
  | nil => intro w n _ hk _ _; exact ⟨rfl, hk⟩
  | cons s rest ih =>
    intro w n hreg hk hn hfin
    cases hf : w.failed with
    | true =>
      rw [run_of_failed _ _ hf] at hfin
      rw [hf] at hfin
      exact absurd hfin (by decide)
    | false =>
      rw [run_cons w s rest hf] at hfin ⊢
      have hf1 : (step w s).failed = false := by
        cases h : (step w s).failed with
        | false => rfl
        | true =>
          rw [run_of_failed _ rest h, h] at hfin
          exact absurd hfin (by decide)
      obtain ⟨-, -, -, s4⟩ := step_count f w s (hreg s (List.mem_cons_self _ _))
      have hk1 := step_keysWithin n w s hk
      have hcount : List.countP isRequestLater (s :: rest) =
          List.countP isRequestLater rest + (if isRequestLater s = true then 1 else 0) :=
        List.countP_cons _ _ _
      have hn1 : n + (if isRequestLater s = true then 1 else 0) +
          List.countP isRequestLater rest < 4294967296 := by omega
      obtain ⟨i1, i2⟩ := ih (step w s) _ (fun x hx => hreg x (List.mem_cons_of_mem _ hx))
        hk1 hn1 hfin
      have hstep := s4 hf1 (fun _ => hk.next_absent (by omega))
      refine ⟨by omega, ?_⟩
      rw [hcount]
      have e : n + (List.countP isRequestLater rest + (if isRequestLater s = true then 1 else 0)) =
          n + (if isRequestLater s = true then 1 else 0) + List.countP isRequestLater rest := by
        omega
      rw [e]
      exact i2

theorem KeysWithin_initial : KeysWithin 0 initial.self := by
  intro e he
  simp [initial, NewConnect, Records.entries] at he

/-! ## Where an invocation comes from -/

theorem Records.mem_of_get {m : Records} {k : Int} {record : RequestRecord}
    (h : m.get k = some record) : (⟨k, record⟩ : Sigma (fun _ : Int => RequestRecord)) ∈ m.entries := by
  cases m with
  | none => simp [Records.get] at h
  | some t => exact AList.mem_lookup_iff.1 h

theorem KeysWithin.mono {n m : Nat} {self : ConnectImpl} (h : KeysWithin n self)
    (hnm : n ≤ m) : KeysWithin m self := by
  intro e he
  obtain ⟨j, hj, hej⟩ := h e he
  exact ⟨j, by omega, hej⟩

theorem run_keysWithin (steps : List Step) :
    ∀ (w : World) (n : Nat), KeysWithin n w.self →
      KeysWithin (n + steps.countP isRequestLater) (run w steps).self := by
  induction steps with
  | nil => intro w n h; exact h
  | cons s rest ih =>
    intro w n h
    have hcount : List.countP isRequestLater (s :: rest) =
        List.countP isRequestLater rest + (if isRequestLater s = true then 1 else 0) :=
      List.countP_cons _ _ _
    cases hf : w.failed with
    | true =>
      rw [run_of_failed _ _ hf]
      exact h.mono (by omega)
    | false =>
      rw [run_cons w s rest hf]
      exact (ih _ _ (step_keysWithin n w s h)).mono (by omega)

theorem length_insert_of_mem (t : AList (fun _ : Int => RequestRecord)) (k : Int)
    (v : RequestRecord) (h : ∃ e ∈ t.entries, e.1 = k) :
    (t.insert k v).entries.length = t.entries.length := by
  obtain ⟨e, he, hk⟩ := h
  have hlen : (List.kerase k t.entries).length = t.entries.length - 1 := by
    unfold List.kerase
    exact List.length_eraseP_of_mem he (by simp [hk])
  have hpos : 0 < t.entries.length := List.length_pos_of_mem he
  rw [AList.insert_entries, List.length_cons, hlen]
  omega

theorem RequestLater_next_id (self : ConnectImpl) (log : List Effect) (request : Request)
    (callback : RequestCallback) (werr : Option Error) (k : Int)
    (hc : Connected self = true) (hseq : self.sequenceId = k) :
    (RequestLater self log request callback werr).self.sequenceId = wrapInt32 (k + 1) := by
  rw [RequestLater_sequenceId, hc, if_pos rfl, hseq]

theorem RequestLater_replaces (self : ConnectImpl) (log : List Effect) (request : Request)
    (callback : RequestCallback) (k : Int) (old : RequestRecord)
    (hc : Connected self = true) (hwf : WellFormed self)
    (hseq : wrapInt32 (self.sequenceId + 1) = k) (hold : self.records.get k = some old) :
    (RequestLater self log request callback none).ret = some none ∧
    (RequestLater self log request callback none).self.sequenceId = k ∧
    (RequestLater self log request callback none).self.records.get k =
      some { request := request, callback := callback } ∧
    (RequestLater self log request callback none).self.records.entries.length =
      self.records.entries.length := by
  obtain ⟨hr, hk⟩ := hwf.1 hc
  obtain ⟨c, hk⟩ := Option.isSome_iff_exists.1 hk
  obtain ⟨t, hr⟩ := Option.isSome_iff_exists.1 hr
  rw [RequestLater_ok self log request callback c t hc hk hr, hseq]
  refine ⟨rfl, rfl, Records.get_insert_self _ _ _, ?_⟩
  rw [hr] at hold ⊢
  exact length_insert_of_mem t k _ ⟨⟨k, old⟩, Records.mem_of_get hold, rfl⟩

theorem run_replicate_requestLater_keeps (request : Request) (g : Nat) (k0 : Int) (n : Nat) :
    ∀ w : World, w.failed = false → Connected w.self = true → WellFormed w.self →
      (∀ j : Nat, 1 ≤ j → j ≤ n → wrapInt32 (w.self.sequenceId + j) ≠ k0) →
      (run w (List.replicate n (Step.requestLater request (some g) none))).self.records.get k0 =
        w.self.records.get k0 := by
  induction n with
  | zero => intro w _ _ _ _; rfl
  | succ n ih =>
    intro w hf hc hwf hne
    obtain ⟨t, hr, hstep⟩ := step_requestLater_ok w request (some g) hc hwf
    have hwf1 := step_wellFormed w (Step.requestLater request (some g) none) hwf
    rw [List.replicate_succ, run_cons _ _ _ hf]
    have h1 : wrapInt32 (w.self.sequenceId + 1) ≠ k0 := by
      have := hne 1 (Nat.le_refl 1) (by omega)
      simpa using this
    rw [ih (step w (Step.requestLater request (some g) none)) (by rw [hstep])
      (by rw [hstep]; exact hc) hwf1 ?_]
    · rw [hstep, hr]
      exact Records.get_insert_ne t _ (fun h => h1 h.symm)
    · intro j hj1 hjn
      rw [hstep]
      simp only
      rw [wrapInt32_wrapInt32_add]
      have := hne (j + 1) (by omega) (by omega)
      have e : w.self.sequenceId + 1 + (j : Int) = w.self.sequenceId + ((j + 1 : Nat) : Int) := by
        push_cast; ring
      rw [e]
      exact this

/-- C6 (counterexample): both runs stay in one connection generation.  After 2147483647
`RequestLater` calls the counter is 2147483647 and the next `RequestLater` moves it to
-2147483648, not to 2147483648.  And after a request with callback 0 (id 1) and 4294967295
further `RequestLater` calls, the next successful `RequestLater` is assigned id 1 again: 1
is already a key, the record pending under it is replaced, and the table has as many
entries as before. -/
theorem RequestLater_wraps_and_replaces :
    (Connected (run initial (Step.connect (Except.ok 1) ::
        List.replicate 2147483647 (Step.requestLater (Value.obj 0) (some 1) none))).self = true ∧
      (run initial (Step.connect (Except.ok 1) ::
        List.replicate 2147483647
          (Step.requestLater (Value.obj 0) (some 1) none))).self.sequenceId = 2147483647 ∧
      (RequestLater
        (run initial (Step.connect (Except.ok 1) ::
          List.replicate 2147483647 (Step.requestLater (Value.obj 0) (some 1) none))).self
        (run initial (Step.connect (Except.ok 1) ::
          List.replicate 2147483647 (Step.requestLater (Value.obj 0) (some 1) none))).log
        (Value.obj 0) (some 1) none).self.sequenceId = -2147483648) ∧
    (Connected (run initial
        ([Step.connect (Except.ok 1), Step.requestLater (Value.obj 0) (some 0) none] ++
          List.replicate 4294967295
            (Step.requestLater (Value.obj 0) (some 1) none))).self = true ∧
      (run initial
        ([Step.connect (Except.ok 1), Step.requestLater (Value.obj 0) (some 0) none] ++
          List.replicate 4294967295
            (Step.requestLater (Value.obj 0) (some 1) none))).self.records.get 1 =
        some { request := Value.obj 0, callback := some 0 } ∧
      (RequestLater
        (run initial
          ([Step.connect (Except.ok 1), Step.requestLater (Value.obj 0) (some 0) none] ++
            List.replicate 4294967295 (Step.requestLater (Value.obj 0) (some 1) none))).self
        (run initial
          ([Step.connect (Except.ok 1), Step.requestLater (Value.obj 0) (some 0) none] ++
            List.replicate 4294967295 (Step.requestLater (Value.obj 0) (some 1) none))).log
        (Value.obj 0) (some 1) none).ret = some none ∧
      (RequestLater
        (run initial
          ([Step.connect (Except.ok 1), Step.requestLater (Value.obj 0) (some 0) none] ++
            List.replicate 4294967295 (Step.requestLater (Value.obj 0) (some 1) none))).self
        (run initial
          ([Step.connect (Except.ok 1), Step.requestLater (Value.obj 0) (some 0) none] ++
            List.replicate 4294967295 (Step.requestLater (Value.obj 0) (some 1) none))).log
        (Value.obj 0) (some 1) none).self.sequenceId = 1 ∧
      (RequestLater
        (run initial
          ([Step.connect (Except.ok 1), Step.requestLater (Value.obj 0) (some 0) none] ++
            List.replicate 4294967295 (Step.requestLater (Value.obj 0) (some 1) none))).self
        (run initial
          ([Step.connect (Except.ok 1), Step.requestLater (Value.obj 0) (some 0) none] ++
            List.replicate 4294967295 (Step.requestLater (Value.obj 0) (some 1) none))).log
        (Value.obj 0) (some 1) none).self.records.get 1 =
        some { request := Value.obj 0, callback := some 1 } ∧
      (RequestLater
        (run initial
          ([Step.connect (Except.ok 1), Step.requestLater (Value.obj 0) (some 0) none] ++
            List.replicate 4294967295 (Step.requestLater (Value.obj 0) (some 1) none))).self
        (run initial
          ([Step.connect (Except.ok 1), Step.requestLater (Value.obj 0) (some 0) none] ++
            List.replicate 4294967295 (Step.requestLater (Value.obj 0) (some 1) none))).log
        (Value.obj 0) (some 1) none).self.records.entries.length =
        (run initial
          ([Step.connect (Except.ok 1), Step.requestLater (Value.obj 0) (some 0) none] ++
            List.replicate 4294967295
              (Step.requestLater (Value.obj 0) (some 1) none))).self.records.entries.length) := by
  constructor
  · rw [run_cons initial _ _ rfl]
    have hwf0 : WellFormed (step initial (Step.connect (Except.ok 1))).self :=
      step_wellFormed initial _ WellFormed_NewConnect
    obtain ⟨-, h2, -, h4, -⟩ := run_replicate_requestLater (Value.obj 0) 1 0 2147483647
      (step initial (Step.connect (Except.ok 1))) rfl rfl hwf0 (by decide)
    have hseq0 : (step initial (Step.connect (Except.ok 1))).self.sequenceId = 0 := rfl
    rw [hseq0] at h4
    have h4' : wrapInt32 (0 + ((2147483647 : Nat) : Int)) = 2147483647 := by decide
    exact ⟨h2, h4.trans h4',
      (RequestLater_next_id _ _ _ _ _ 2147483647 h2 (h4.trans h4')).trans (by decide)⟩
  · rw [run_append]
    have hwf2 : WellFormed (run initial
        [Step.connect (Except.ok 1), Step.requestLater (Value.obj 0) (some 0) none]).self :=
      run_wellFormed _ initial WellFormed_NewConnect
    obtain ⟨-, h2, -, h4, -⟩ := run_replicate_requestLater (Value.obj 0) 1 1 4294967295
      (run initial [Step.connect (Except.ok 1), Step.requestLater (Value.obj 0) (some 0) none])
      (by decide) (by decide) hwf2 (by decide)
    have hkeep := run_replicate_requestLater_keeps (Value.obj 0) 1 1 4294967295
      (run initial [Step.connect (Except.ok 1), Step.requestLater (Value.obj 0) (some 0) none])
      (by decide) (by decide) hwf2
      (by
        intro j hj1 hjn
        have hs : (run initial [Step.connect (Except.ok 1),
            Step.requestLater (Value.obj 0) (some 0) none]).self.sequenceId = 1 := by decide
        rw [hs]
        unfold wrapInt32
        omega)
    have hwf3 := run_wellFormed
      (List.replicate 4294967295 (Step.requestLater (Value.obj 0) (some 1) none)) _ hwf2
    have hold : (run (run initial
        [Step.connect (Except.ok 1), Step.requestLater (Value.obj 0) (some 0) none])
        (List.replicate 4294967295
          (Step.requestLater (Value.obj 0) (some 1) none))).self.records.get 1 =
        some { request := Value.obj 0, callback := some 0 } :=
      hkeep.trans (by decide)
    have hseq : wrapInt32 ((run (run initial
        [Step.connect (Except.ok 1), Step.requestLater (Value.obj 0) (some 0) none])
        (List.replicate 4294967295
          (Step.requestLater (Value.obj 0) (some 1) none))).self.sequenceId + 1) = 1 := by
      rw [h4]
      decide
    obtain ⟨r1, r2, r3, r4⟩ := RequestLater_replaces _ _ (Value.obj 0) (some 1) 1 _ h2 hwf3 hseq hold
    exact ⟨h2, hold, r1, r2, r3, r4⟩

/-- C6 (amended): in every connected state a sequential run can reach, a `RequestLater` whose
write succeeds returns nil, moves the counter to `id`, the `int32` successor of its old
value (the old value plus one below 2147483647, and -2147483648 at 2147483647), writes
exactly the one packet `Request(id, request)` and invokes nothing, stores
`{request, callback}` under `id`, and leaves every entry under another key, the socket and
the codec unchanged.  When `id` is not yet a key the table grows by exactly that one entry;
when `id` is already a key the record pending under it is replaced and the table keeps its
size.  And `id` is not yet a key whenever fewer than 2^32 `RequestLater` calls have been
made since the table was last empty. -/
theorem RequestLater_registers_request (w : World) (request : Request)
    (callback : RequestCallback) (hw : Reachable w) (hc : Connected w.self = true) :
    (RequestLater w.self w.log request callback none).ret = some none ∧
    (RequestLater w.self w.log request callback none).self.sequenceId =
      wrapInt32 (w.self.sequenceId + 1) ∧
    (w.self.sequenceId < 2147483647 →
      wrapInt32 (w.self.sequenceId + 1) = w.self.sequenceId + 1) ∧
    (RequestLater w.self w.log request callback none).log =
      w.log ++ [Effect.write (Packet.request (wrapInt32 (w.self.sequenceId + 1)) request)] ∧
    (RequestLater w.self w.log request callback none).self.records.get
      (wrapInt32 (w.self.sequenceId + 1)) = some { request := request, callback := callback } ∧
    (∀ k : Int, k ≠ wrapInt32 (w.self.sequenceId + 1) →
      (RequestLater w.self w.log request callback none).self.records.get k =
        w.self.records.get k) ∧
    (RequestLater w.self w.log request callback none).self.conn = w.self.conn ∧
    (RequestLater w.self w.log request callback none).self.connCodec = w.self.connCodec ∧
    (w.self.sequenceId = 2147483647 → wrapInt32 (w.self.sequenceId + 1) = -2147483648) ∧
    (w.self.records.get (wrapInt32 (w.self.sequenceId + 1)) = none →
      (RequestLater w.self w.log request callback none).self.records.entries =
        ⟨wrapInt32 (w.self.sequenceId + 1), { request := request, callback := callback }⟩ ::
          w.self.records.entries) ∧
    (∀ old : RequestRecord, w.self.records.get (wrapInt32 (w.self.sequenceId + 1)) = some old →
      (RequestLater w.self w.log request callback none).self.records.entries.length =
        w.self.records.entries.length) ∧
    (∀ (w0 : World) (steps : List Step), run w0 steps = w → w0.self.records.entries = [] →
      steps.countP isRequestLater < 4294967296 →
      w.self.records.get (wrapInt32 (w.self.sequenceId + 1)) = none) := by
  have hwf := hw.wellFormed
  obtain ⟨hr, hk⟩ := hwf.1 hc
  obtain ⟨k, hk⟩ := Option.isSome_iff_exists.1 hk
  obtain ⟨t, hr⟩ := Option.isSome_iff_exists.1 hr
  rw [RequestLater_ok w.self w.log request callback k t hc hk hr]
  refine ⟨rfl, rfl, ?_, rfl, Records.get_insert_self _ _ _, ?_, rfl, rfl, ?_, ?_, ?_, ?_⟩
  · intro hlt
    exact wrapInt32_of_range (by have := hwf.2.1; omega) (by omega)
  · intro j hj
    rw [hr]
    exact Records.get_insert_ne t _ hj
  · intro h
    rw [h]
    decide
  · intro habs
    rw [hr] at habs ⊢
    have hnot : wrapInt32 (w.self.sequenceId + 1) ∉ t := by
      rw [← AList.lookup_eq_none]
      exact habs
    exact AList.insert_entries_of_neg hnot
  · intro old hold
    rw [hr] at hold ⊢
    exact length_insert_of_mem t _ _ ⟨⟨_, old⟩, Records.mem_of_get hold, rfl⟩
  · intro w0 steps hrun hempty hn
    have h0 : KeysWithin 0 w0.self := by
      intro e he
      rw [hempty] at he
      exact absurd he (List.not_mem_nil e)
    have hkw := run_keysWithin steps w0 0 h0
    rw [hrun] at hkw
    exact hkw.next_absent (by omega)

/-- Witness of C6 (amended) on the instance right after a successful `Connect`: the request
is written under the fresh id 1 and its record is the one entry of the table. -/
theorem RequestLater_registers_request_witness :
    Connected (run initial [Step.connect (Except.ok 1)]).self = true ∧
    (RequestLater (run initial [Step.connect (Except.ok 1)]).self
        (run initial [Step.connect (Except.ok 1)]).log (Value.obj 4) (some 7) none).log =
      (run initial [Step.connect (Except.ok 1)]).log ++
        [Effect.write (Packet.request
          (wrapInt32 ((run initial [Step.connect (Except.ok 1)]).self.sequenceId + 1))
          (Value.obj 4))] ∧
    (RequestLater (run initial [Step.connect (Except.ok 1)]).self
        (run initial [Step.connect (Except.ok 1)]).log (Value.obj 4)
        (some 7) none).self.records.entries =
      [⟨1, { request := Value.obj 4, callback := some 7 }⟩] :=
  ⟨by decide,
   (RequestLater_registers_request (run initial [Step.connect (Except.ok 1)]) (Value.obj 4)
      (some 7) ⟨[Step.connect (Except.ok 1)], rfl⟩ (by decide)).2.2.2.1,
   by decide⟩

/-! ## Connect with a failing dial, and nil tables or callbacks -/

/-- `Connect` with a failing dial, away from nil callbacks: when no pending record holds a
nil callback it returns the dial error; and whenever it returns at all it returns the dial
error, `Connected()` is false, no records table is installed, the codec and the counter are
untouched, and the log has grown by exactly one `(255, nil)` invocation per record that was
pending (then the close of the old socket, if any): no read loop is started. -/
theorem Connect_dial_failure (self : ConnectImpl) (log : List Effect) (err : Error) :
    ((∀ e ∈ self.records.entries, e.2.callback ≠ none) →
      (Connect self log (Except.error err)).ret = some (some err)) ∧
    ((Connect self log (Except.error err)).ret.isSome = true →
      (Connect self log (Except.error err)).ret = some (some err) ∧
      Connected (Connect self log (Except.error err)).self = false ∧
      (Connect self log (Except.error err)).self.records = none ∧
      (Connect self log (Except.error err)).self.connCodec = self.connCodec ∧
      (Connect self log (Except.error err)).self.sequenceId = self.sequenceId ∧
      ∃ fs : List Nat,
        self.records.entries.map (fun e => e.2.callback) = fs.map some ∧
        (Connect self log (Except.error err)).log =
          log ++ fs.map (fun f => Effect.call f 255 Value.nil) ++
            (match self.conn with
              | some c => [Effect.close c]
              | none => [])) := by
  constructor
  · intro h
    rw [Connect_dial_error self log err (drain_complete _ log h)]
  · intro h
    cases hd : (drain self.records.entries log).2 with
    | false =>
      rw [Connect_failed self log _ hd] at h
      exact absurd h (by simp)
    | true =>
      obtain ⟨fs, h1, h2⟩ := drain_calls _ log hd
      rw [Connect_dial_error self log err hd]
      refine ⟨rfl, rfl, rfl, rfl, rfl, fs, h1, ?_⟩
      rw [Disconnect_ok self log hd, h2]

/-- A failing dial on a connected instance with two pending records, both with a callback. -/
theorem Connect_dial_failure_witness :
    (Connect sampleTwo [] (Except.error "refused")).ret = some (some "refused") ∧
    Connected (Connect sampleTwo [] (Except.error "refused")).self = false ∧
    (Connect sampleTwo [] (Except.error "refused")).log =
      [Effect.call 8 255 Value.nil, Effect.call 7 255 Value.nil, Effect.close 1] :=
  ⟨(Connect_dial_failure sampleTwo [] "refused").1 (by decide),
   ((Connect_dial_failure sampleTwo [] "refused").2 (by decide)).2.1,
   by decide⟩

/-- C11 (the code at the failing input): after `Connect` and a successful
`RequestLater(request, nil)` the instance is connected with a record pending under id 1.
`Connect` with a failing dial then ends in a run-time failure inside the `Disconnect` it
performs first (the call of the nil func): it returns nothing, the dial error included, the
instance is still connected, the record is still in the table, and nothing was invoked. -/
theorem Connect_fails_on_nil_callback :
    (run initial [Step.connect (Except.ok 1),
      Step.requestLater (Value.obj 4) none none]).failed = false ∧
    Connected (run initial [Step.connect (Except.ok 1),
      Step.requestLater (Value.obj 4) none none]).self = true ∧
    (Connect (run initial [Step.connect (Except.ok 1),
      Step.requestLater (Value.obj 4) none none]).self [] (Except.error "refused")).ret = none ∧
    Connected (Connect (run initial [Step.connect (Except.ok 1),
      Step.requestLater (Value.obj 4) none none]).self [] (Except.error "refused")).self = true ∧
    (Connect (run initial [Step.connect (Except.ok 1),
      Step.requestLater (Value.obj 4) none none]).self [] (Except.error "refused")).self.records.get 1 =
        some { request := Value.obj 4, callback := none } ∧
    (Connect (run initial [Step.connect (Except.ok 1),
      Step.requestLater (Value.obj 4) none none]).self [] (Except.error "refused")).log = [] ∧
    (run initial [Step.connect (Except.ok 1), Step.requestLater (Value.obj 4) none none,
      Step.connect (Except.error "refused")]).failed = true := by
  decide

/-- C18: in every state a sequential run reaches from `NewConnect()`, a connected instance
has its records table and its codec installed, so `Write` reaches the codec and
`RequestLater` returns what the codec write returned, without a run-time failure. -/
theorem connected_has_table_and_codec (w : World) (hw : Reachable w)
    (hc : Connected w.self = true) :
    w.self.records.isSome = true ∧ w.self.connCodec.isSome = true ∧
    (∀ (p : Packet) (werr : Option Error), (Write w.self w.log p werr).ret = some werr) ∧
    (∀ (request : Request) (callback : RequestCallback) (werr : Option Error),
      (RequestLater w.self w.log request callback werr).ret = some werr) := by
  obtain ⟨hr, hk⟩ := hw.wellFormed.1 hc
  obtain ⟨k, hk'⟩ := Option.isSome_iff_exists.1 hk
  obtain ⟨t, hr'⟩ := Option.isSome_iff_exists.1 hr
  refine ⟨hr, hk, fun p werr => by simp [Write, hk'], fun request callback werr => ?_⟩
  cases werr with
  | some e => rw [RequestLater_write_error w.self w.log request callback e k hc hk']
  | none => rw [RequestLater_ok w.self w.log request callback k t hc hk' hr']

/-- Witness of C18 after a reconnect with a request in between. -/
theorem connected_has_table_and_codec_witness :
    (run initial [Step.connect (Except.ok 1), Step.requestLater (Value.obj 4) (some 7) none,
      Step.connect (Except.ok 2)]).self.records.isSome = true ∧
    (run initial [Step.connect (Except.ok 1), Step.requestLater (Value.obj 4) (some 7) none,
      Step.connect (Except.ok 2)]).self.connCodec.isSome = true :=
  ⟨(connected_has_table_and_codec _ ⟨_, rfl⟩ (by decide)).1,
   (connected_has_table_and_codec _ ⟨_, rfl⟩ (by decide)).2.1⟩

/-- C19 (the code at the failing input): after `Connect` and a successful
`RequestLater(request, nil)` the table holds a record with a nil callback; `DispatchResult`
for its id returns and removes it without invoking anything, but `Disconnect` on the same
state ends in a run-time failure (the call of the nil func) and leaves the table as it was. -/
theorem Disconnect_fails_on_nil_callback :
    (run initial [Step.connect (Except.ok 1),
      Step.requestLater (Value.obj 4) none none]).failed = false ∧
    (run initial [Step.connect (Except.ok 1),
      Step.requestLater (Value.obj 4) none none]).self.records.get 1 =
        some { request := Value.obj 4, callback := none } ∧
    (DispatchResult (run initial [Step.connect (Except.ok 1),
      Step.requestLater (Value.obj 4) none none]).self [] 1 0 (Value.obj 9)).ret = some () ∧
    (DispatchResult (run initial [Step.connect (Except.ok 1),
      Step.requestLater (Value.obj 4) none none]).self [] 1 0 (Value.obj 9)).log = [] ∧
    (Disconnect (run initial [Step.connect (Except.ok 1),
      Step.requestLater (Value.obj 4) none none]).self []).ret = none ∧
    (Disconnect (run initial [Step.connect (Except.ok 1),
      Step.requestLater (Value.obj 4) none none]).self []).self.records.get 1 =
        some { request := Value.obj 4, callback := none } ∧
    (run initial [Step.connect (Except.ok 1), Step.requestLater (Value.obj 4) none none,
      Step.disconnect]).failed = true := by
  decide

end Client

namespace Server
namespace Proxy

/-! ## The lookup table of the proxy configuration -/

theorem loadRoutes_idem (ToLower : String → String) (this : Config) :
    loadRoutes ToLower (loadRoutes ToLower this) = loadRoutes ToLower this := by
  unfold loadRoutes
  cases h : this.Proxy.routes with
  | none => rfl
  | some t => simp [h]

theorem loadRoutes_Motd (ToLower : String → String) (this : Config) :
    (loadRoutes ToLower this).Proxy.Motd = this.Proxy.Motd := by
  unfold loadRoutes
  cases h : this.Proxy.routes <;> rfl

theorem loadRoutes_Routes (ToLower : String → String) (this : Config) :
    (loadRoutes ToLower this).Proxy.Routes = this.Proxy.Routes := by
  unfold loadRoutes
  cases h : this.Proxy.routes <;> rfl

theorem loadRoutes_of_valid (ToLower : String → String) (this : Config)
    (h : CacheValid ToLower this) :
    (loadRoutes ToLower this).Proxy.routes = some (buildRoutes ToLower this.Proxy.Routes) := by
  unfold loadRoutes
  rcases h with h | h
  · rw [h]
  · rw [h]; exact h

theorem loadRoutes_valid (ToLower : String → String) (this : Config)
    (h : CacheValid ToLower this) : CacheValid ToLower (loadRoutes ToLower this) :=
  Or.inr (by rw [loadRoutes_Routes]; exact loadRoutes_of_valid ToLower this h)

theorem lookup_foldl_of_absent (ToLower : String → String) (k : String)
    (l : List ConfigProxyRoute) :
    ∀ acc : RouteMap, (∀ x ∈ l, ToLower x.Domain ≠ k) →
      List.lookup k (l.foldl (fun routes route => RouteMap.set routes (ToLower route.Domain) route)
        acc) = List.lookup k acc := by
  induction l with
  | nil => intro acc _; rfl
  | cons x rest ih =>
    intro acc h
    rw [List.foldl_cons, ih _ (fun y hy => h y (List.mem_cons_of_mem _ hy))]
    have hx : ToLower x.Domain ≠ k := h x (List.mem_cons_self _ _)
    have hb : (k == ToLower x.Domain) = false := by
      rw [beq_eq_false_iff_ne]
      exact fun e => hx e.symm
    simp [RouteMap.set, List.lookup_cons, hb]

theorem lookup_buildRoutes_absent (ToLower : String → String) (k : String)
    (Routes : List ConfigProxyRoute) (h : ∀ x ∈ Routes, ToLower x.Domain ≠ k) :
    RouteMap.get (some (buildRoutes ToLower Routes)) k = none := by
  simp only [RouteMap.get, buildRoutes]
  rw [lookup_foldl_of_absent ToLower k Routes [] h]
  rfl

theorem lookup_buildRoutes_last (ToLower : String → String) (k : String)
    (pre post : List ConfigProxyRoute) (r : ConfigProxyRoute) (hr : ToLower r.Domain = k)
    (hpost : ∀ x ∈ post, ToLower x.Domain ≠ k) :
    RouteMap.get (some (buildRoutes ToLower (pre ++ r :: post))) k = some r := by
  simp only [RouteMap.get, buildRoutes, List.foldl_append, List.foldl_cons]
  rw [lookup_foldl_of_absent ToLower k post _ hpost]
  simp [RouteMap.set, List.lookup_cons, hr]

theorem exists_last_match (ToLower : String → String) (k : String) :
    ∀ Routes : List ConfigProxyRoute, (∃ r ∈ Routes, ToLower r.Domain = k) →
      ∃ (pre : List ConfigProxyRoute) (r : ConfigProxyRoute) (post : List ConfigProxyRoute),
        Routes = pre ++ r :: post ∧ ToLower r.Domain = k ∧ ∀ x ∈ post, ToLower x.Domain ≠ k := by
  intro Routes
  induction Routes with
  | nil => intro h; obtain ⟨r, hr, _⟩ := h; simp at hr
  | cons a rest ih =>
    intro h
    by_cases hrest : ∃ r ∈ rest, ToLower r.Domain = k
    · obtain ⟨pre, r, post, h1, h2, h3⟩ := ih hrest
      exact ⟨a :: pre, r, post, by rw [h1]; rfl, h2, h3⟩
    · obtain ⟨r, hr, hk⟩ := h
      rcases List.mem_cons.1 hr with hra | hrr
      · subst hra
        exact ⟨[], r, rest, rfl, hk, fun x hx hxk => hrest ⟨x, hx, hxk⟩⟩
      · exact absurd ⟨r, hrr, hk⟩ hrest

/-! ## The four Route functions follow one pattern -/

theorem Route_body_empty (ToLower : String → String)
    (again : Config → List String × Config) (this : Config) :
    Route.body ToLower again this "" =
      ((match RouteMap.get (loadRoutes ToLower this).Proxy.routes (ToLower "") with
        | some route => serversOf route
        | none => []), loadRoutes ToLower this) := by
  cases hg : RouteMap.get (loadRoutes ToLower this).Proxy.routes (ToLower "") with
  | none => simp [Route.body, hg]
  | some route =>
    cases hs : route.Servers with
    | none => by_cases hl : route.Server.length = 0 <;> simp [Route.body, hg, serversOf, hs, hl]
    | some servers => simp [Route.body, hg, serversOf, hs]

theorem Route_body_found (ToLower : String → String)
    (again : Config → List String × Config) (this : Config) (domain : String)
    (route : ConfigProxyRoute)
    (hg : RouteMap.get (loadRoutes ToLower this).Proxy.routes (ToLower domain) = some route) :
    Route.body ToLower again this domain = (serversOf route, loadRoutes ToLower this) := by
  cases hs : route.Servers with
  | none => by_cases hl : route.Server.length = 0 <;> simp [Route.body, hg, serversOf, hs, hl]
  | some servers => simp [Route.body, hg, serversOf, hs]

theorem Route_body_absent (ToLower : String → String)
    (again : Config → List String × Config) (this : Config) (domain : String)
    (hg : RouteMap.get (loadRoutes ToLower this).Proxy.routes (ToLower domain) = none) :
    Route.body ToLower again this domain =
      if domain ≠ "" then again (loadRoutes ToLower this) else ([], loadRoutes ToLower this) := by
  simp [Route.body, hg]

theorem Route_rec (ToLower : String → String) (this : Config) (domain : String) :
    Route ToLower this domain =
      Route.body ToLower (fun c => Route ToLower c "") this domain := by
  have h : (fun c => Route ToLower c "") =
      (fun c => Route.body ToLower (fun c1 => ([], c1)) c "") := by
    funext c
    unfold Route
    rw [Route_body_empty, Route_body_empty]
  rw [h]
  rfl

theorem Route_snd (ToLower : String → String) (this : Config) (domain : String) :
    (Route ToLower this domain).2 = loadRoutes ToLower this := by
  unfold Route
  cases hg : RouteMap.get (loadRoutes ToLower this).Proxy.routes (ToLower domain) with
  | none =>
    rw [Route_body_absent _ _ _ _ hg]
    by_cases hd : domain = ""
    · simp [hd]
    · simp only [ne_eq, hd, not_false_eq_true, if_true]
      rw [Route_body_empty, loadRoutes_idem]
  | some route => rw [Route_body_found _ _ _ _ route hg]

theorem Route_fst (ToLower : String → String) (this : Config) (domain : String) :
    (Route ToLower this domain).1 =
      withFallback (fun route => some (serversOf route)) [] ToLower
        (loadRoutes ToLower this).Proxy.routes domain := by
  unfold Route
  cases hg : RouteMap.get (loadRoutes ToLower this).Proxy.routes (ToLower domain) with
  | some route =>
    rw [Route_body_found _ _ _ _ route hg]
    simp [withFallback, hg]
  | none =>
    rw [Route_body_absent _ _ _ _ hg]
    by_cases hd : domain = ""
    · subst hd
      simp [withFallback, hg]
    · simp only [ne_eq, hd, not_false_eq_true, if_true]
      rw [Route_body_empty, loadRoutes_idem]
      cases hw : RouteMap.get (loadRoutes ToLower this).Proxy.routes (ToLower "") <;>
        simp [withFallback, hg, hw]

theorem RouteMotds_body_value (ToLower : String → String)
    (again : Config → List String × Config) (this : Config) (domain : String)
    (route : ConfigProxyRoute) (v : List String)
    (hg : RouteMap.get (loadRoutes ToLower this).Proxy.routes (ToLower domain) = some route)
    (hv : motdsOf route = some v) :
    RouteMotds.body ToLower again this domain = (v, loadRoutes ToLower this) := by
  unfold motdsOf at hv
  cases hs : route.Motds with
  | some motds =>
    rw [hs] at hv
    simp only [Option.some.injEq] at hv
    simp [RouteMotds.body, hg, hs, hv]
  | none =>
    rw [hs] at hv
    by_cases hl : route.Motd.length > 0
    · simp only [hl, if_true, Option.some.injEq] at hv
      simp [RouteMotds.body, hg, hs, hl, hv]
    · simp [hl] at hv

theorem RouteMotds_body_rest (ToLower : String → String)
    (again : Config → List String × Config) (this : Config) (domain : String)
    (hg : (RouteMap.get (loadRoutes ToLower this).Proxy.routes (ToLower domain)).bind motdsOf =
      none) :
    RouteMotds.body ToLower again this domain =
      if domain ≠ "" then again (loadRoutes ToLower this)
      else ([(loadRoutes ToLower this).Proxy.Motd], loadRoutes ToLower this) := by
  cases hr : RouteMap.get (loadRoutes ToLower this).Proxy.routes (ToLower domain) with
  | none => simp [RouteMotds.body, hr]
  | some route =>
    rw [hr] at hg
    simp only [Option.bind_some, Option.some_bind] at hg
    unfold motdsOf at hg
    cases hs : route.Motds with
    | some motds => simp [hs] at hg
    | none =>
      rw [hs] at hg
      by_cases hl : route.Motd.length > 0
      · simp [hl] at hg
      · simp [RouteMotds.body, hr, hs, hl]

theorem RouteMotds_fst (ToLower : String → String) (this : Config) (domain : String) :
    (RouteMotds ToLower this domain).1 =
      withFallback motdsOf [this.Proxy.Motd] ToLower
        (loadRoutes ToLower this).Proxy.routes domain := by
  unfold RouteMotds
  cases hg : (RouteMap.get (loadRoutes ToLower this).Proxy.routes (ToLower domain)).bind
      motdsOf with
  | some v =>
    obtain ⟨route, hr, hv⟩ := Option.bind_eq_some.1 hg
    rw [RouteMotds_body_value _ _ _ _ route v hr hv]
    simp [withFallback, hg]
  | none =>
    rw [RouteMotds_body_rest _ _ _ _ hg]
    by_cases hd : domain = ""
    · subst hd
      simp [withFallback, hg, loadRoutes_Motd]
    · simp only [ne_eq, hd, not_false_eq_true, if_true]
      cases hw : (RouteMap.get (loadRoutes ToLower this).Proxy.routes (ToLower "")).bind
          motdsOf with
      | some v =>
        obtain ⟨route, hr, hv⟩ := Option.bind_eq_some.1 hw
        rw [RouteMotds_body_value _ _ _ _ route v (by rw [loadRoutes_idem]; exact hr) hv]
        simp [withFallback, hg, hw]
      | none =>
        rw [RouteMotds_body_rest _ _ _ _ (by rw [loadRoutes_idem]; exact hw)]
        simp [withFallback, hg, hw, loadRoutes_Motd]

theorem RouteMotds_snd (ToLower : String → String) (this : Config) (domain : String) :
    (RouteMotds ToLower this domain).2 = loadRoutes ToLower this := by
  unfold RouteMotds
  cases hg : (RouteMap.get (loadRoutes ToLower this).Proxy.routes (ToLower domain)).bind
      motdsOf with
  | some v =>
    obtain ⟨route, hr, hv⟩ := Option.bind_eq_some.1 hg
    rw [RouteMotds_body_value _ _ _ _ route v hr hv]
  | none =>
    rw [RouteMotds_body_rest _ _ _ _ hg]
    by_cases hd : domain = ""
    · simp [hd]
    · simp only [ne_eq, hd, not_false_eq_true, if_true]
      cases hw : (RouteMap.get (loadRoutes ToLower this).Proxy.routes (ToLower "")).bind
          motdsOf with
      | some v =>
        obtain ⟨route, hr, hv⟩ := Option.bind_eq_some.1 hw
        rw [RouteMotds_body_value _ _ _ _ route v (by rw [loadRoutes_idem]; exact hr) hv,
          loadRoutes_idem]
      | none =>
        rw [RouteMotds_body_rest _ _ _ _ (by rw [loadRoutes_idem]; exact hw)]
        simp [loadRoutes_idem]

theorem RouteIcons_body_value (ToLower : String → String)
    (again : Config → List String × Config) (this : Config) (domain : String)
    (route : ConfigProxyRoute) (v : List String)
    (hg : RouteMap.get (loadRoutes ToLower this).Proxy.routes (ToLower domain) = some route)
    (hv : iconsOf route = some v) :
    RouteIcons.body ToLower again this domain = (v, loadRoutes ToLower this) := by
  unfold iconsOf at hv
  cases hs : route.Icons with
  | some icons =>
    rw [hs] at hv
    simp only [Option.some.injEq] at hv
    simp [RouteIcons.body, hg, hs, hv]
  | none =>
    rw [hs] at hv
    by_cases hl : route.Icon.length > 0
    · simp only [hl, if_true, Option.some.injEq] at hv
      simp [RouteIcons.body, hg, hs, hl, hv]
    · simp [hl] at hv

theorem RouteIcons_body_rest (ToLower : String → String)
    (again : Config → List String × Config) (this : Config) (domain : String)
    (hg : (RouteMap.get (loadRoutes ToLower this).Proxy.routes (ToLower domain)).bind iconsOf =
      none) :
    RouteIcons.body ToLower again this domain =
      if domain ≠ "" then again (loadRoutes ToLower this)
      else (["server-icon.png"], loadRoutes ToLower this) := by
  cases hr : RouteMap.get (loadRoutes ToLower this).Proxy.routes (ToLower domain) with
  | none => simp [RouteIcons.body, hr]
  | some route =>
    rw [hr] at hg
    simp only [Option.bind_some, Option.some_bind] at hg
    unfold iconsOf at hg
    cases hs : route.Icons with
    | some icons => simp [hs] at hg
    | none =>
      rw [hs] at hg
      by_cases hl : route.Icon.length > 0
      · simp [hl] at hg
      · simp [RouteIcons.body, hr, hs, hl]

theorem RouteIcons_fst (ToLower : String → String) (this : Config) (domain : String) :
    (RouteIcons ToLower this domain).1 =
      withFallback iconsOf ["server-icon.png"] ToLower
        (loadRoutes ToLower this).Proxy.routes domain := by
  unfold RouteIcons
  cases hg : (RouteMap.get (loadRoutes ToLower this).Proxy.routes (ToLower domain)).bind
      iconsOf with
  | some v =>
    obtain ⟨route, hr, hv⟩ := Option.bind_eq_some.1 hg
    rw [RouteIcons_body_value _ _ _ _ route v hr hv]
    simp [withFallback, hg]
  | none =>
    rw [RouteIcons_body_rest _ _ _ _ hg]
    by_cases hd : domain = ""
    · subst hd
      simp [withFallback, hg]
    · simp only [ne_eq, hd, not_false_eq_true, if_true]
      cases hw : (RouteMap.get (loadRoutes ToLower this).Proxy.routes (ToLower "")).bind
          iconsOf with
      | some v =>
        obtain ⟨route, hr, hv⟩ := Option.bind_eq_some.1 hw
        rw [RouteIcons_body_value _ _ _ _ route v (by rw [loadRoutes_idem]; exact hr) hv]
        simp [withFallback, hg, hw]
      | none =>
        rw [RouteIcons_body_rest _ _ _ _ (by rw [loadRoutes_idem]; exact hw)]
        simp [withFallback, hg, hw]

theorem RouteIcons_snd (ToLower : String → String) (this : Config) (domain : String) :
    (RouteIcons ToLower this domain).2 = loadRoutes ToLower this := by
  unfold RouteIcons
  cases hg : (RouteMap.get (loadRoutes ToLower this).Proxy.routes (ToLower domain)).bind
      iconsOf with
  | some v =>
    obtain ⟨route, hr, hv⟩ := Option.bind_eq_some.1 hg
    rw [RouteIcons_body_value _ _ _ _ route v hr hv]
  | none =>
    rw [RouteIcons_body_rest _ _ _ _ hg]
    by_cases hd : domain = ""
    · simp [hd]
    · simp only [ne_eq, hd, not_false_eq_true, if_true]
      cases hw : (RouteMap.get (loadRoutes ToLower this).Proxy.routes (ToLower "")).bind
          iconsOf with
      | some v =>
        obtain ⟨route, hr, hv⟩ := Option.bind_eq_some.1 hw
        rw [RouteIcons_body_value _ _ _ _ route v (by rw [loadRoutes_idem]; exact hr) hv,
          loadRoutes_idem]
      | none =>
        rw [RouteIcons_body_rest _ _ _ _ (by rw [loadRoutes_idem]; exact hw)]
        simp [loadRoutes_idem]

theorem RouteSample_body_value (ToLower : String → String)
    (again : Config → String × Config) (this : Config) (domain : String)
    (route : ConfigProxyRoute) (v : String)
    (hg : RouteMap.get (loadRoutes ToLower this).Proxy.routes (ToLower domain) = some route)
    (hv : sampleOf route = some v) :
    RouteSample.body ToLower again this domain = (v, loadRoutes ToLower this) := by
  unfold sampleOf at hv
  by_cases hl : route.Sample = ""
  · simp [hl] at hv
  · simp only [ne_eq, hl, not_false_eq_true, if_true, Option.some.injEq] at hv
    subst hv
    simp [RouteSample.body, hg, hl]

theorem RouteSample_body_rest (ToLower : String → String)
    (again : Config → String × Config) (this : Config) (domain : String)
    (hg : (RouteMap.get (loadRoutes ToLower this).Proxy.routes (ToLower domain)).bind sampleOf =
      none) :
    RouteSample.body ToLower again this domain =
      if domain ≠ "" then again (loadRoutes ToLower this)
      else ("sample.txt", loadRoutes ToLower this) := by
  cases hr : RouteMap.get (loadRoutes ToLower this).Proxy.routes (ToLower domain) with
  | none => simp [RouteSample.body, hr]
  | some route =>
    rw [hr] at hg
    simp only [Option.bind_some, Option.some_bind] at hg
    unfold sampleOf at hg
    by_cases hl : route.Sample = ""
    · simp [RouteSample.body, hr, hl]
    · simp [hl] at hg

theorem RouteSample_fst (ToLower : String → String) (this : Config) (domain : String) :
    (RouteSample ToLower this domain).1 =
      withFallback sampleOf "sample.txt" ToLower
        (loadRoutes ToLower this).Proxy.routes domain := by
  unfold RouteSample
  cases hg : (RouteMap.get (loadRoutes ToLower this).Proxy.routes (ToLower domain)).bind
      sampleOf with
  | some v =>
    obtain ⟨route, hr, hv⟩ := Option.bind_eq_some.1 hg
    rw [RouteSample_body_value _ _ _ _ route v hr hv]
    simp [withFallback, hg]
  | none =>
    rw [RouteSample_body_rest _ _ _ _ hg]
    by_cases hd : domain = ""
    · subst hd
      simp [withFallback, hg]
    · simp only [ne_eq, hd, not_false_eq_true, if_true]
      cases hw : (RouteMap.get (loadRoutes ToLower this).Proxy.routes (ToLower "")).bind
          sampleOf with
      | some v =>
        obtain ⟨route, hr, hv⟩ := Option.bind_eq_some.1 hw
        rw [RouteSample_body_value _ _ _ _ route v (by rw [loadRoutes_idem]; exact hr) hv]
        simp [withFallback, hg, hw]
      | none =>
        rw [RouteSample_body_rest _ _ _ _ (by rw [loadRoutes_idem]; exact hw)]
        simp [withFallback, hg, hw]

theorem RouteMotds_rec (ToLower : String → String) (this : Config) (domain : String) :
    RouteMotds ToLower this domain =
      RouteMotds.body ToLower (fun c => RouteMotds ToLower c "") this domain := by
  have hind : ∀ (a b : Config → List String × Config) (c : Config),
      RouteMotds.body ToLower a c "" = RouteMotds.body ToLower b c "" := by
    intro a b c
    cases hg : (RouteMap.get (loadRoutes ToLower c).Proxy.routes (ToLower "")).bind motdsOf with
    | some v =>
      obtain ⟨route, hr, hv⟩ := Option.bind_eq_some.1 hg
      rw [RouteMotds_body_value _ _ _ _ route v hr hv, RouteMotds_body_value _ _ _ _ route v hr hv]
    | none =>
      rw [RouteMotds_body_rest _ _ _ _ hg, RouteMotds_body_rest _ _ _ _ hg]
      simp
  have h : (fun c => RouteMotds ToLower c "") =
      (fun c => RouteMotds.body ToLower (fun c1 => ([], c1)) c "") := by
    funext c
    unfold RouteMotds
    exact hind _ _ c
  rw [h]
  rfl

theorem RouteIcons_rec (ToLower : String → String) (this : Config) (domain : String) :
    RouteIcons ToLower this domain =
      RouteIcons.body ToLower (fun c => RouteIcons ToLower c "") this domain := by
  have hind : ∀ (a b : Config → List String × Config) (c : Config),
      RouteIcons.body ToLower a c "" = RouteIcons.body ToLower b c "" := by
    intro a b c
    cases hg : (RouteMap.get (loadRoutes ToLower c).Proxy.routes (ToLower "")).bind iconsOf with
    | some v =>
      obtain ⟨route, hr, hv⟩ := Option.bind_eq_some.1 hg
      rw [RouteIcons_body_value _ _ _ _ route v hr hv, RouteIcons_body_value _ _ _ _ route v hr hv]
    | none =>
      rw [RouteIcons_body_rest _ _ _ _ hg, RouteIcons_body_rest _ _ _ _ hg]
      simp
  have h : (fun c => RouteIcons ToLower c "") =
      (fun c => RouteIcons.body ToLower (fun c1 => ([], c1)) c "") := by
    funext c
    unfold RouteIcons
    exact hind _ _ c
  rw [h]
  rfl

theorem RouteSample_rec (ToLower : String → String) (this : Config) (domain : String) :
    RouteSample ToLower this domain =
      RouteSample.body ToLower (fun c => RouteSample ToLower c "") this domain := by
  have hind : ∀ (a b : Config → String × Config) (c : Config),
      RouteSample.body ToLower a c "" = RouteSample.body ToLower b c "" := by
    intro a b c
    cases hg : (RouteMap.get (loadRoutes ToLower c).Proxy.routes (ToLower "")).bind sampleOf with
    | some v =>
      obtain ⟨route, hr, hv⟩ := Option.bind_eq_some.1 hg
      rw [RouteSample_body_value _ _ _ _ route v hr hv, RouteSample_body_value _ _ _ _ route v hr hv]
    | none =>
      rw [RouteSample_body_rest _ _ _ _ hg, RouteSample_body_rest _ _ _ _ hg]
      simp
  have h : (fun c => RouteSample ToLower c "") =
      (fun c => RouteSample.body ToLower (fun c1 => ("", c1)) c "") := by
    funext c
    unfold RouteSample
    exact hind _ _ c
  rw [h]
  rfl

theorem withFallback_congr {α : Type} (value : ConfigProxyRoute → Option α) (dflt : α)
    (ToLower : String → String) (routes : Option RouteMap) (d1 d2 : String)
    (h : ToLower d1 = ToLower d2) :
    withFallback value dflt ToLower routes d1 = withFallback value dflt ToLower routes d2 := by
  unfold withFallback
  rw [h]

theorem withFallback_absent {α : Type} (value : ConfigProxyRoute → Option α) (dflt : α)
    (ToLower : String → String) (routes : Option RouteMap) (domain : String)
    (h : RouteMap.get routes (ToLower domain) = none) :
    withFallback value dflt ToLower routes domain =
      withFallback value dflt ToLower routes "" := by
  unfold withFallback
  rw [h]
  cases hw : (RouteMap.get routes (ToLower "")).bind value <;> simp

/-! ## Route: case-insensitivity, wildcard fallback, last route wins -/

theorem asciiToLower_empty {s : String} (h : asciiToLower s = asciiToLower "") : s = "" := by
  have h1 : (asciiToLower s).data = [] := by rw [h]; rfl
  have h2 : s.data = [] := by
    simpa [asciiToLower] using h1
  cases s with
  | mk data =>
    simp only at h2
    rw [h2]

theorem Route_of_last (ToLower : String → String) (this : Config) (domain : String)
    (hv : CacheValid ToLower this) (pre post : List ConfigProxyRoute) (r : ConfigProxyRoute)
    (hsplit : this.Proxy.Routes = pre ++ r :: post)
    (hr : ToLower r.Domain = ToLower domain)
    (hpost : ∀ x ∈ post, ToLower x.Domain ≠ ToLower domain) :
    (Route ToLower this domain).1 = serversOf r := by
  have hg : RouteMap.get (loadRoutes ToLower this).Proxy.routes (ToLower domain) = some r := by
    rw [loadRoutes_of_valid ToLower this hv, hsplit]
    exact lookup_buildRoutes_last ToLower _ pre post r hr hpost
  rw [Route_fst]
  simp [withFallback, hg]

theorem Route_of_unmatched (ToLower : String → String) (this : Config) (domain : String)
    (hv : CacheValid ToLower this)
    (hun : ∀ r ∈ this.Proxy.Routes, ToLower r.Domain ≠ ToLower domain) :
    (Route ToLower this domain).1 = (Route ToLower this "").1 := by
  have hg : RouteMap.get (loadRoutes ToLower this).Proxy.routes (ToLower domain) = none := by
    rw [loadRoutes_of_valid ToLower this hv]
    exact lookup_buildRoutes_absent ToLower _ _ hun
  rw [Route_fst, Route_fst]
  exact withFallback_absent _ _ _ _ _ hg

/-- C12 (counterexample): a route is configured under `"hub.example.com"` with server
`"old"`, and the query `"HUB.EXAMPLE.COM"` has the same lower-case form, yet `Route` does
not return that route's servers: a later route configured under `"Hub.Example.com"` has
replaced it in the lookup table. -/
theorem Route_shadowed_route_not_used :
    ({ Domain := "hub.example.com", Server := "old", Servers := none, Motd := "",
       Motds := none, Icon := "", Icons := none, Sample := "" } : ConfigProxyRoute) ∈
      sampleShadowed.Proxy.Routes ∧
    asciiToLower "HUB.EXAMPLE.COM" = asciiToLower "hub.example.com" ∧
    serversOf { Domain := "hub.example.com", Server := "old", Servers := none, Motd := "",
                Motds := none, Icon := "", Icons := none, Sample := "" } = ["old"] ∧
    (Route asciiToLower sampleShadowed "HUB.EXAMPLE.COM").1 = [] := by
  decide

/-- C12 (amended): for every configuration, two domains with equal lower-case forms get the
same list from `Route`; and, the lookup table being the one built from `Routes`, the last
route configured under a domain with a given lower-case form is the one whose servers
`Route` returns for every query with that lower-case form. -/
theorem Route_case_insensitive (ToLower : String → String) (this : Config) :
    (∀ d1 d2 : String, ToLower d1 = ToLower d2 →
      (Route ToLower this d1).1 = (Route ToLower this d2).1) ∧
    (CacheValid ToLower this →
      ∀ (pre post : List ConfigProxyRoute) (r : ConfigProxyRoute),
        this.Proxy.Routes = pre ++ r :: post →
        (∀ x ∈ post, ToLower x.Domain ≠ ToLower r.Domain) →
        ∀ q : String, ToLower q = ToLower r.Domain →
          (Route ToLower this q).1 = serversOf r) := by
  constructor
  · intro d1 d2 h
    rw [Route_fst, Route_fst]
    exact withFallback_congr _ _ _ _ _ _ h
  · intro hv pre post r hsplit hpost q hq
    exact Route_of_last ToLower this q hv pre post r hsplit hq.symm
      (fun x hx => by rw [hq]; exact hpost x hx)

/-- Witness of C12 (amended) on `DefaultConfig()`: `"EXAMPLE.COM"` is served by the route
configured under `"example.com"`. -/
theorem Route_case_insensitive_witness :
    (Route asciiToLower DefaultConfig "EXAMPLE.COM").1 = ["hub1", "hub2"] ∧
    (Route asciiToLower DefaultConfig "Example.Com").1 =
      (Route asciiToLower DefaultConfig "EXAMPLE.COM").1 :=
  ⟨(Route_case_insensitive asciiToLower DefaultConfig).2 (Or.inl rfl)
      [{ Domain := "", Server := "example", Servers := none, Motd := "", Motds := none,
         Icon := "", Icons := none, Sample := "" }]
      [{ Domain := "hub.exmaple.com", Server := "hub", Servers := none, Motd := "",
         Motds := some ["Example MOTD 1", "Example MOTD 2"], Icon := "", Icons := none,
         Sample := "" },
       { Domain := "icon.exmaple.com", Server := "hub", Servers := none, Motd := "",
         Motds := none, Icon := "icon.png",
         Icons := some ["icon1.png", "icon2.png", "icons/icon3.png"], Sample := "" }]
      { Domain := "example.com", Server := "", Servers := some ["hub1", "hub2"],
        Motd := "Example Custom MOTD", Motds := none, Icon := "", Icons := none, Sample := "" }
      rfl (by decide) "EXAMPLE.COM" (by decide),
   (Route_case_insensitive asciiToLower DefaultConfig).1 "Example.Com" "EXAMPLE.COM"
     (by decide)⟩

/-- C13: let `ToLower` send only the empty string to the lower-case form of the empty string,
and let the lookup table be the one built from `Routes`.  For every domain whose lower-case
form matches no configured route, `Route` returns the servers of the wildcard route (the
last route configured with the empty domain), in their configured order, when there is one,
and the empty list when no route is configured with the empty domain. -/
theorem Route_unmatched_falls_back_to_wildcard (ToLower : String → String) (this : Config)
    (domain : String) (hlow : ∀ s : String, ToLower s = ToLower "" → s = "")
    (hv : CacheValid ToLower this)
    (hun : ∀ r ∈ this.Proxy.Routes, ToLower r.Domain ≠ ToLower domain) :
    (∀ (pre post : List ConfigProxyRoute) (r : ConfigProxyRoute),
      this.Proxy.Routes = pre ++ r :: post → r.Domain = "" → (∀ x ∈ post, x.Domain ≠ "") →
        (Route ToLower this domain).1 =
          (match r.Servers with
            | some servers => servers
            | none => if r.Server.length = 0 then [] else [r.Server])) ∧
    ((∀ r ∈ this.Proxy.Routes, r.Domain ≠ "") → (Route ToLower this domain).1 = []) := by
  rw [Route_of_unmatched ToLower this domain hv hun]
  constructor
  · intro pre post r hsplit hr hpost
    rw [Route_of_last ToLower this "" hv pre post r hsplit (by rw [hr])
      (fun x hx hxe => hpost x hx (hlow _ hxe))]
    rfl
  · intro hnone
    have hg : RouteMap.get (loadRoutes ToLower this).Proxy.routes (ToLower "") = none := by
      rw [loadRoutes_of_valid ToLower this hv]
      exact lookup_buildRoutes_absent ToLower _ _ (fun r hr hre => hnone r hr (hlow _ hre))
    rw [Route_fst]
    simp [withFallback, hg]

/-- Witness of C13 on `DefaultConfig()`: an unconfigured domain gets the wildcard's server. -/
theorem Route_unmatched_falls_back_to_wildcard_witness :
    (Route asciiToLower DefaultConfig "Unknown.org").1 = ["example"] :=
  (Route_unmatched_falls_back_to_wildcard asciiToLower DefaultConfig "Unknown.org"
    (fun _ h => asciiToLower_empty h) (Or.inl rfl) (by decide)).1 []
      [{ Domain := "example.com", Server := "", Servers := some ["hub1", "hub2"],
         Motd := "Example Custom MOTD", Motds := none, Icon := "", Icons := none, Sample := "" },
       { Domain := "hub.exmaple.com", Server := "hub", Servers := none, Motd := "",
         Motds := some ["Example MOTD 1", "Example MOTD 2"], Icon := "", Icons := none,
         Sample := "" },
       { Domain := "icon.exmaple.com", Server := "hub", Servers := none, Motd := "",
         Motds := none, Icon := "icon.png",
         Icons := some ["icon1.png", "icon2.png", "icons/icon3.png"], Sample := "" }]
      { Domain := "", Server := "example", Servers := none, Motd := "", Motds := none,
        Icon := "", Icons := none, Sample := "" }
      rfl rfl (by decide)

/-- C20: the lookup table being the one built from `Routes`, for every domain whose
lower-case form matches a configured route there is a last such route in configured order,
and `Route` returns what that route alone gives, whatever the wildcard route holds: its
`Servers` in order when `Servers` is set, else `[Server]` when `Server` is non-empty, else
the empty list. -/
theorem Route_uses_last_matching_route (ToLower : String → String) (this : Config)
    (domain : String) (hv : CacheValid ToLower this)
    (hm : ∃ r ∈ this.Proxy.Routes, ToLower r.Domain = ToLower domain) :
    (∃ (pre : List ConfigProxyRoute) (r : ConfigProxyRoute) (post : List ConfigProxyRoute),
      this.Proxy.Routes = pre ++ r :: post ∧ ToLower r.Domain = ToLower domain ∧
        ∀ x ∈ post, ToLower x.Domain ≠ ToLower domain) ∧
    (∀ (pre post : List ConfigProxyRoute) (r : ConfigProxyRoute),
      this.Proxy.Routes = pre ++ r :: post → ToLower r.Domain = ToLower domain →
      (∀ x ∈ post, ToLower x.Domain ≠ ToLower domain) →
        (Route ToLower this domain).1 =
          (match r.Servers with
            | some servers => servers
            | none => if r.Server.length = 0 then [] else [r.Server])) := by
  refine ⟨exists_last_match ToLower _ _ hm, ?_⟩
  intro pre post r hsplit hr hpost
  rw [Route_of_last ToLower this domain hv pre post r hsplit hr hpost]
  rfl

/-- Witness of C20: in `sampleShadowed` the last route under `hub.example.com` has no
server, and `Route` returns the empty list although the wildcard route has one. -/
theorem Route_uses_last_matching_route_witness :
    (Route asciiToLower sampleShadowed "HUB.EXAMPLE.COM").1 = [] ∧
    (Route asciiToLower sampleShadowed "").1 = ["lobby"] :=
  ⟨(Route_uses_last_matching_route asciiToLower sampleShadowed "HUB.EXAMPLE.COM" (Or.inl rfl)
      (by decide)).2
      [{ Domain := "", Server := "lobby", Servers := none, Motd := "", Motds := none,
         Icon := "", Icons := none, Sample := "" },
       { Domain := "hub.example.com", Server := "old", Servers := none, Motd := "",
         Motds := none, Icon := "", Icons := none, Sample := "" }]
      []
      { Domain := "Hub.Example.com", Server := "", Servers := none, Motd := "",
        Motds := none, Icon := "", Icons := none, Sample := "" }
      rfl (by decide) (by decide),
   by decide⟩

/-- C17: `RouteMotds`, `RouteIcons` and `RouteSample` are instances of the pattern of
`Route` (`withFallback`: match on the lower-case domain, then the wildcard, then a default).
For every configuration each returns the same value for two domains with equal lower-case
forms; and, the lookup table being the one built from `Routes`, for a domain whose
lower-case form matches no configured route each returns what it returns for `""`. -/
theorem Route_family_follows_pattern (ToLower : String → String) (this : Config) :
    (∀ domain : String,
      (Route ToLower this domain).1 =
        withFallback (fun route => some (serversOf route)) [] ToLower
          (loadRoutes ToLower this).Proxy.routes domain ∧
      (RouteMotds ToLower this domain).1 =
        withFallback motdsOf [this.Proxy.Motd] ToLower
          (loadRoutes ToLower this).Proxy.routes domain ∧
      (RouteIcons ToLower this domain).1 =
        withFallback iconsOf ["server-icon.png"] ToLower
          (loadRoutes ToLower this).Proxy.routes domain ∧
      (RouteSample ToLower this domain).1 =
        withFallback sampleOf "sample.txt" ToLower
          (loadRoutes ToLower this).Proxy.routes domain) ∧
    (∀ d1 d2 : String, ToLower d1 = ToLower d2 →
      (RouteMotds ToLower this d1).1 = (RouteMotds ToLower this d2).1 ∧
      (RouteIcons ToLower this d1).1 = (RouteIcons ToLower this d2).1 ∧
      (RouteSample ToLower this d1).1 = (RouteSample ToLower this d2).1) ∧
    (CacheValid ToLower this →
      ∀ domain : String, (∀ r ∈ this.Proxy.Routes, ToLower r.Domain ≠ ToLower domain) →
        (RouteMotds ToLower this domain).1 = (RouteMotds ToLower this "").1 ∧
        (RouteIcons ToLower this domain).1 = (RouteIcons ToLower this "").1 ∧
        (RouteSample ToLower this domain).1 = (RouteSample ToLower this "").1) := by
  refine ⟨fun domain => ⟨Route_fst _ _ _, RouteMotds_fst _ _ _, RouteIcons_fst _ _ _,
    RouteSample_fst _ _ _⟩, ?_, ?_⟩
  · intro d1 d2 h
    simp only [RouteMotds_fst, RouteIcons_fst, RouteSample_fst]
    exact ⟨withFallback_congr _ _ _ _ _ _ h, withFallback_congr _ _ _ _ _ _ h,
      withFallback_congr _ _ _ _ _ _ h⟩
  · intro hv domain hun
    have hg : RouteMap.get (loadRoutes ToLower this).Proxy.routes (ToLower domain) = none := by
      rw [loadRoutes_of_valid ToLower this hv]
      exact lookup_buildRoutes_absent ToLower _ _ hun
    simp only [RouteMotds_fst, RouteIcons_fst, RouteSample_fst]
    exact ⟨withFallback_absent _ _ _ _ _ hg, withFallback_absent _ _ _ _ _ hg,
      withFallback_absent _ _ _ _ _ hg⟩

/-- Witness of C17 on `DefaultConfig()`. -/
theorem Route_family_follows_pattern_witness :
    (RouteIcons asciiToLower DefaultConfig "ICON.EXMAPLE.COM").1 =
      (RouteIcons asciiToLower DefaultConfig "icon.exmaple.com").1 ∧
    (RouteMotds asciiToLower DefaultConfig "Unknown.org").1 =
      (RouteMotds asciiToLower DefaultConfig "").1 :=
  ⟨((Route_family_follows_pattern asciiToLower DefaultConfig).2.1 "ICON.EXMAPLE.COM"
      "icon.exmaple.com" (by decide)).2.1,
   ((Route_family_follows_pattern asciiToLower DefaultConfig).2.2 (Or.inl rfl) "Unknown.org"
      (by decide)).1⟩

end Proxy

namespace Connect

/-! ## Authenticate -/

theorem loop_cons_fails {R : Type} (Compile : String → Except String R)
    (MatchString : R → String → Bool) (PasswordAndSaltHash : String → String → String)
    (username password passwordSalt err : String) (login : ConfigLogin R)
    (rest : List (ConfigLogin R)) (h : login.FailsWith Compile username err) :
    Authenticate.loop Compile MatchString PasswordAndSaltHash username password passwordSalt
      (login :: rest) = (false, some err) := by
  obtain ⟨h1, h2, h3⟩ := h
  unfold ConfigLogin.NameMatches at h1
  unfold ConfigLogin.matcher at h3
  rw [Authenticate.loop, if_neg h1, if_pos h2, h3]

theorem loop_cons_accepts {R : Type} (Compile : String → Except String R)
    (MatchString : R → String → Bool) (PasswordAndSaltHash : String → String → String)
    (username password passwordSalt : String) (login : ConfigLogin R)
    (rest : List (ConfigLogin R))
    (h : login.Accepts Compile MatchString PasswordAndSaltHash username password passwordSalt) :
    Authenticate.loop Compile MatchString PasswordAndSaltHash username password passwordSalt
      (login :: rest) = (true, none) := by
  obtain ⟨hm, hp⟩ := h
  by_cases hn : login.Username.length ≠ 0 ∧ login.Username = username
  · rw [Authenticate.loop, if_pos hn, if_pos hp]
  · rcases hm with hm | ⟨h2, r, h3, h4⟩
    · exact absurd hm hn
    · unfold ConfigLogin.matcher at h3
      rw [Authenticate.loop, if_neg hn, if_pos h2, h3]
      simp only [h4, if_true, hp]

theorem loop_cons_skips {R : Type} (Compile : String → Except String R)
    (MatchString : R → String → Bool) (PasswordAndSaltHash : String → String → String)
    (username password passwordSalt : String) (login : ConfigLogin R)
    (rest : List (ConfigLogin R))
    (hfail : ∀ err : String, ¬ login.FailsWith Compile username err)
    (hacc : ¬ login.Accepts Compile MatchString PasswordAndSaltHash username password
      passwordSalt) :
    Authenticate.loop Compile MatchString PasswordAndSaltHash username password passwordSalt
      (login :: rest) =
      Authenticate.loop Compile MatchString PasswordAndSaltHash username password passwordSalt
        rest := by
  by_cases hn : login.Username.length ≠ 0 ∧ login.Username = username
  · have hp : ¬ PasswordAndSaltHash login.Password passwordSalt = password :=
      fun hp => hacc ⟨Or.inl hn, hp⟩
    rw [Authenticate.loop, if_pos hn, if_neg hp]
  · by_cases h2 : login.Regexp.length ≠ 0
    · cases h3 : login.matcher Compile with
      | error err => exact absurd ⟨hn, h2, h3⟩ (hfail err)
      | ok r =>
        unfold ConfigLogin.matcher at h3
        rw [Authenticate.loop, if_neg hn, if_pos h2, h3]
        by_cases h4 : MatchString r username = true
        · have hp : ¬ PasswordAndSaltHash login.Password passwordSalt = password :=
            fun hp => hacc ⟨Or.inr ⟨h2, r, by unfold ConfigLogin.matcher; exact h3, h4⟩, hp⟩
          simp only [h4, if_true, hp, if_false]
        · simp only [h4, if_false]
          rfl
    · rw [Authenticate.loop, if_neg hn, if_neg h2]

theorem fails_not_accepts {R : Type} (Compile : String → Except String R)
    (MatchString : R → String → Bool) (PasswordAndSaltHash : String → String → String)
    (username password passwordSalt err : String) (login : ConfigLogin R)
    (h : login.FailsWith Compile username err) :
    ¬ login.Accepts Compile MatchString PasswordAndSaltHash username password passwordSalt := by
  intro hacc
  obtain ⟨h1, _, h3⟩ := h
  rcases hacc.1 with hm | ⟨_, r, hr, _⟩
  · exact h1 hm
  · rw [h3] at hr
    cases hr

/-- What the loop returns, in terms of the first rule that ends it. -/
theorem loop_outcome {R : Type} (Compile : String → Except String R)
    (MatchString : R → String → Bool) (PasswordAndSaltHash : String → String → String)
    (username password passwordSalt : String) :
    ∀ logins : List (ConfigLogin R),
      (Authenticate.loop Compile MatchString PasswordAndSaltHash username password passwordSalt
          logins = (false, none) ∧
        ∀ x ∈ logins, (∀ err : String, ¬ x.FailsWith Compile username err) ∧
          ¬ x.Accepts Compile MatchString PasswordAndSaltHash username password passwordSalt) ∨
      ∃ (pre : List (ConfigLogin R)) (login : ConfigLogin R) (post : List (ConfigLogin R)),
        logins = pre ++ login :: post ∧
        (∀ x ∈ pre, (∀ err : String, ¬ x.FailsWith Compile username err) ∧
          ¬ x.Accepts Compile MatchString PasswordAndSaltHash username password passwordSalt) ∧
        ((login.Accepts Compile MatchString PasswordAndSaltHash username password passwordSalt ∧
            Authenticate.loop Compile MatchString PasswordAndSaltHash username password
              passwordSalt logins = (true, none)) ∨
          ∃ err : String, login.FailsWith Compile username err ∧
            Authenticate.loop Compile MatchString PasswordAndSaltHash username password
              passwordSalt logins = (false, some err)) := by
  intro logins
  induction logins with
  | nil => exact Or.inl ⟨rfl, fun x hx => by simp at hx⟩
  | cons login rest ih =>
    by_cases hacc : login.Accepts Compile MatchString PasswordAndSaltHash username password
        passwordSalt
    · exact Or.inr ⟨[], login, rest, rfl, fun x hx => by simp at hx,
        Or.inl ⟨hacc, loop_cons_accepts _ _ _ _ _ _ _ _ hacc⟩⟩
    · by_cases hfail : ∃ err : String, login.FailsWith Compile username err
      · obtain ⟨err, hfail⟩ := hfail
        exact Or.inr ⟨[], login, rest, rfl, fun x hx => by simp at hx,
          Or.inr ⟨err, hfail, loop_cons_fails _ _ _ _ _ _ _ _ _ hfail⟩⟩
      · have hfail' : ∀ err : String, ¬ login.FailsWith Compile username err :=
          fun err h => hfail ⟨err, h⟩
        have hskip := loop_cons_skips Compile MatchString PasswordAndSaltHash username password
          passwordSalt login rest hfail' hacc
        rcases ih with ⟨h1, h2⟩ | ⟨pre, l, post, h1, h2, h3⟩
        · left
          refine ⟨hskip.trans h1, fun x hx => ?_⟩
          rcases List.mem_cons.1 hx with hx | hx
          · rw [hx]; exact ⟨hfail', hacc⟩
          · exact h2 x hx
        · right
          refine ⟨login :: pre, l, post, by rw [h1]; rfl, fun x hx => ?_, ?_⟩
          · rcases List.mem_cons.1 hx with hx | hx
            · rw [hx]; exact ⟨hfail', hacc⟩
            · exact h2 x hx
          · rw [hskip]
            exact h3

theorem loop_accepts_at {R : Type} (Compile : String → Except String R)
    (MatchString : R → String → Bool) (PasswordAndSaltHash : String → String → String)
    (username password passwordSalt : String) (login : ConfigLogin R)
    (post : List (ConfigLogin R))
    (hacc : login.Accepts Compile MatchString PasswordAndSaltHash username password passwordSalt) :
    ∀ pre : List (ConfigLogin R),
      (∀ x ∈ pre, ∀ err : String, ¬ x.FailsWith Compile username err) →
      Authenticate.loop Compile MatchString PasswordAndSaltHash username password passwordSalt
        (pre ++ login :: post) = (true, none) := by
  intro pre
  induction pre with
  | nil => intro _; exact loop_cons_accepts _ _ _ _ _ _ _ _ hacc
  | cons x rest ih =>
    intro h
    by_cases hx : x.Accepts Compile MatchString PasswordAndSaltHash username password passwordSalt
    · exact loop_cons_accepts _ _ _ _ _ _ _ _ hx
    · rw [List.cons_append, loop_cons_skips _ _ _ _ _ _ _ _ (h x (List.mem_cons_self _ _)) hx]
      exact ih (fun y hy => h y (List.mem_cons_of_mem _ hy))

theorem loop_fails_at {R : Type} (Compile : String → Except String R)
    (MatchString : R → String → Bool) (PasswordAndSaltHash : String → String → String)
    (username password passwordSalt err : String) (login : ConfigLogin R)
    (post : List (ConfigLogin R)) (hfail : login.FailsWith Compile username err) :
    ∀ pre : List (ConfigLogin R),
      (∀ x ∈ pre, (∀ e : String, ¬ x.FailsWith Compile username e) ∧
        ¬ x.Accepts Compile MatchString PasswordAndSaltHash username password passwordSalt) →
      Authenticate.loop Compile MatchString PasswordAndSaltHash username password passwordSalt
        (pre ++ login :: post) = (false, some err) := by
  intro pre
  induction pre with
  | nil => intro _; exact loop_cons_fails _ _ _ _ _ _ _ _ _ hfail
  | cons x rest ih =>
    intro h
    obtain ⟨h1, h2⟩ := h x (List.mem_cons_self _ _)
    rw [List.cons_append, loop_cons_skips _ _ _ _ _ _ _ _ h1 h2]
    exact ih (fun y hy => h y (List.mem_cons_of_mem _ hy))

/-- C14: for every list of login rules, username, password and salt, with the regexp
compiler and matcher and `PasswordAndSaltHash` any given functions: if `Authenticate`
returns `ok = true`, then some configured rule matches the username (its non-empty
`Username` equals it, or its non-empty `Regexp`, compiled, matches it) and
`PasswordAndSaltHash` of that rule's `Password` and the salt equals the supplied password;
no error is returned. -/
theorem Authenticate_ok_is_sound {R : Type} (Compile : String → Except String R)
    (MatchString : R → String → Bool) (PasswordAndSaltHash : String → String → String)
    (this : Config R) (username password passwordSalt : String)
    (h : (Authenticate Compile MatchString PasswordAndSaltHash this username password
      passwordSalt).1 = true) :
    (∃ login ∈ this.Logins,
      ((login.Username.length ≠ 0 ∧ login.Username = username) ∨
        (login.Regexp.length ≠ 0 ∧
          ∃ r : R, login.matcher Compile = Except.ok r ∧ MatchString r username = true)) ∧
      PasswordAndSaltHash login.Password passwordSalt = password) ∧
    (Authenticate Compile MatchString PasswordAndSaltHash this username password
      passwordSalt).2 = none := by
  unfold Authenticate at h ⊢
  rcases loop_outcome Compile MatchString PasswordAndSaltHash username password passwordSalt
      this.Logins with ⟨h1, _⟩ | ⟨pre, login, post, h1, _, h3⟩
  · rw [h1] at h
    exact absurd h (by decide)
  · rcases h3 with ⟨hacc, hres⟩ | ⟨err, _, hres⟩
    · refine ⟨⟨login, by rw [h1]; simp, hacc.1, hacc.2⟩, by rw [hres]⟩
    · rw [hres] at h
      exact absurd h (by simp)

/-- Witness of C14 on `DefaultConfig()` with the sample matcher and hash. -/
theorem Authenticate_ok_is_sound_witness :
    ∃ login ∈ DefaultConfig.Logins,
      ((login.Username.length ≠ 0 ∧ login.Username = "example") ∨
        (login.Regexp.length ≠ 0 ∧
          ∃ r : String, login.matcher sampleCompile = Except.ok r ∧
            sampleMatchString r "example" = true)) ∧
      sampleHash login.Password "salt" = "examplesalt" :=
  (Authenticate_ok_is_sound sampleCompile sampleMatchString sampleHash DefaultConfig "example"
    "examplesalt" "salt" (by decide)).1

/-- C15 (counterexample): in `sampleLogins` the first rule matches the username `admin`,
and its stored password hashed with the salt is not the supplied password, yet
`Authenticate` returns true: the second rule, for the same user, accepts. -/
theorem Authenticate_later_rule_accepts :
    sampleLogins.Logins.head? =
      some { Username := "admin", Regexp := "(", regexp := none, Password := "old" } ∧
    (("admin" : String).length ≠ 0 ∧ ("admin" : String) = "admin") ∧
    sampleHash "old" "salt" ≠ "newsalt" ∧
    (Authenticate sampleCompile sampleMatchString sampleHash sampleLogins "admin" "newsalt"
      "salt").1 = true :=
  ⟨rfl, by decide, by decide, by decide⟩

/-- C15 (amended): `Authenticate` returns true if and only if some rule that matches the
username has a stored password whose hash with the salt equals the supplied password, and
no rule before it has a regular expression that must be used and fails to compile.  A
matching rule with another password does not end the search. -/
theorem Authenticate_ok_iff {R : Type} (Compile : String → Except String R)
    (MatchString : R → String → Bool) (PasswordAndSaltHash : String → String → String)
    (this : Config R) (username password passwordSalt : String) :
    (Authenticate Compile MatchString PasswordAndSaltHash this username password
        passwordSalt).1 = true ↔
      ∃ (pre : List (ConfigLogin R)) (login : ConfigLogin R) (post : List (ConfigLogin R)),
        this.Logins = pre ++ login :: post ∧
        login.Matches Compile MatchString username ∧
        PasswordAndSaltHash login.Password passwordSalt = password ∧
        ∀ x ∈ pre, ∀ err : String, ¬ x.FailsWith Compile username err := by
  unfold Authenticate
  constructor
  · intro h
    rcases loop_outcome Compile MatchString PasswordAndSaltHash username password passwordSalt
        this.Logins with ⟨h1, _⟩ | ⟨pre, login, post, h1, h2, h3⟩
    · rw [h1] at h
      exact absurd h (by decide)
    · rcases h3 with ⟨hacc, _⟩ | ⟨err, _, hres⟩
      · exact ⟨pre, login, post, h1, hacc.1, hacc.2, fun x hx => (h2 x hx).1⟩
      · rw [hres] at h
        exact absurd h (by simp)
  · rintro ⟨pre, login, post, h1, hm, hp, hpre⟩
    rw [h1, loop_accepts_at Compile MatchString PasswordAndSaltHash username password
      passwordSalt login post ⟨hm, hp⟩ pre hpre]

/-- C16: `Authenticate` returns the error `err` if and only if its in-order evaluation
reaches (no earlier rule accepted or failed) a rule whose `Username` does not match exactly,
whose `Regexp` is non-empty, and whose expression fails to compile with `err`; then `ok` is
false.  When a rule accepts, no error is returned, whatever the later rules hold. -/
theorem Authenticate_error_iff {R : Type} (Compile : String → Except String R)
    (MatchString : R → String → Bool) (PasswordAndSaltHash : String → String → String)
    (this : Config R) (username password passwordSalt : String) :
    (∀ err : String,
      (Authenticate Compile MatchString PasswordAndSaltHash this username password
          passwordSalt).2 = some err ↔
        ∃ (pre : List (ConfigLogin R)) (login : ConfigLogin R) (post : List (ConfigLogin R)),
          this.Logins = pre ++ login :: post ∧
          (∀ x ∈ pre, (∀ e : String, ¬ x.FailsWith Compile username e) ∧
            ¬ x.Accepts Compile MatchString PasswordAndSaltHash username password
              passwordSalt) ∧
          ¬ (login.Username.length ≠ 0 ∧ login.Username = username) ∧
          login.Regexp.length ≠ 0 ∧
          login.matcher Compile = Except.error err) ∧
    (∀ err : String,
      (Authenticate Compile MatchString PasswordAndSaltHash this username password
          passwordSalt).2 = some err →
        (Authenticate Compile MatchString PasswordAndSaltHash this username password
          passwordSalt).1 = false) ∧
    ((Authenticate Compile MatchString PasswordAndSaltHash this username password
        passwordSalt).1 = true →
      (Authenticate Compile MatchString PasswordAndSaltHash this username password
        passwordSalt).2 = none) := by
  unfold Authenticate
  have hout := loop_outcome Compile MatchString PasswordAndSaltHash username password
    passwordSalt this.Logins
  refine ⟨fun err => ⟨fun h => ?_, ?_⟩, fun err h => ?_, fun h => ?_⟩
  · rcases hout with ⟨h1, _⟩ | ⟨pre, login, post, h1, h2, h3⟩
    · rw [h1] at h
      cases h
    · rcases h3 with ⟨_, hres⟩ | ⟨e, hfail, hres⟩
      · rw [hres] at h
        cases h
      · rw [hres] at h
        simp only [Option.some.injEq] at h
        subst h
        exact ⟨pre, login, post, h1, h2, hfail⟩
  · rintro ⟨pre, login, post, h1, hpre, hfail⟩
    rw [h1, loop_fails_at Compile MatchString PasswordAndSaltHash username password
      passwordSalt err login post hfail pre hpre]
  · rcases hout with ⟨h1, _⟩ | ⟨pre, login, post, _, _, h3⟩
    · rw [h1]
    · rcases h3 with ⟨_, hres⟩ | ⟨e, _, hres⟩
      · rw [hres] at h
        cases h
      · rw [hres]
  · rcases hout with ⟨h1, _⟩ | ⟨pre, login, post, _, _, h3⟩
    · rw [h1]
    · rcases h3 with ⟨_, hres⟩ | ⟨e, _, hres⟩
      · rw [hres]
      · rw [hres] at h
        exact absurd h (by simp)

end Connect
end Server
end GoLilyPad
